import Mathlib

/-!
# ecs-slackbot: the Lambda handler and its AWS layer

A shallow embedding of `handler/main.go` and `handler/aws.go`.

Modelling conventions.

* A Go `string` is a `List Char` (`Str`).  Every separator and marker the
  program uses (`"/"`, `":"`, `" "`, `"-cluster"`, `"payload"`) is ASCII, so on
  valid UTF-8 text the byte-wise library functions agree with the
  character-wise ones below.
* A Go `(value, error)` result is an `Except GoError value`.
* A function that talks to AWS or Slack returns a `Run`: its result, or a
  runtime panic (index out of range, nil dereference), together with the list
  of external calls it made, in order.
* Everything outside the repository (the AWS control plane, KMS, the
  environment, the standard library sort) is a field of `World`.
* JSON text is represented by the value it denotes: an inbound body by what the
  decoders make of it, an outbound body by the message that was marshalled.
-/

namespace EcsSlackbot

/-! ## Strings and the standard-library functions used by the program -/

abbrev Str := List Char

/-- Go `strings.HasPrefix(s, p)`. -/
def HasPrefix (s p : Str) : Bool := p.isPrefixOf s

/-- Go `strings.HasSuffix(s, p)`. -/
def HasSuffix (s p : Str) : Bool := p.reverse.isPrefixOf s.reverse

/-- Go `strings.Index(s, sep)`: position of the first occurrence of `sep`. -/
def Index (sep : Str) : Str → Option Nat
  | [] => if sep.isPrefixOf [] then some 0 else none
  | c :: cs =>
    if sep.isPrefixOf (c :: cs) then some 0
    else (Index sep cs).map (· + 1)

/-- The loop of Go `strings.genSplit`: cut at the first occurrence of `sep`,
continue after it.  `fuel` bounds the number of cuts. -/
def splitLoop (sep : Str) : Nat → Str → List Str
  | 0, s => [s]
  | fuel + 1, s =>
    match Index sep s with
    | none => [s]
    | some m => s.take m :: splitLoop sep fuel (s.drop (m + sep.length))

/-- Go `strings.Split(s, sep)`.  With an empty separator the string is exploded
into its characters; otherwise a string of length `n` has at most `n`
occurrences of `sep`, which is the fuel given to the loop. -/
def Split (s sep : Str) : List Str :=
  if sep = [] then s.map (fun c => [c]) else splitLoop sep s.length s

/-- Go `unicode.IsSpace`. -/
def isSpace (c : Char) : Bool :=
  let n := c.toNat
  n = 0x09 || n = 0x0A || n = 0x0B || n = 0x0C || n = 0x0D || n = 0x20 ||
  n = 0x85 || n = 0xA0 || n = 0x1680 || (0x2000 ≤ n && n ≤ 0x200A) ||
  n = 0x2028 || n = 0x2029 || n = 0x202F || n = 0x205F || n = 0x3000

/-- Go `strings.TrimSpace`. -/
def TrimSpace (s : Str) : Str :=
  ((s.dropWhile isSpace).reverse.dropWhile isSpace).reverse

/-- Value of a decimal digit. -/
def digitVal (c : Char) : Option Nat :=
  if 48 ≤ c.toNat ∧ c.toNat ≤ 57 then some (c.toNat - 48) else none

/-- Value of a string of decimal digits read after the accumulator `acc`;
`none` when a character is not a digit. -/
def parseDigits : Nat → Str → Option Nat
  | acc, [] => some acc
  | acc, c :: cs =>
    match digitVal c with
    | none => none
    | some d => parseDigits (acc * 10 + d) cs

/-- Largest value of a Go `int` on the 64-bit targets Lambda runs on. -/
def maxInt : Int := 2 ^ 63 - 1

/-- Smallest value of a Go `int`. -/
def minInt : Int := -(2 ^ 63)

/-- Go `strconv.Atoi`: the value and whether an error is reported.  A syntax
error gives `0`; a value out of range gives the nearest bound of `int` and a
range error. -/
def Atoi (s : Str) : Int × Bool :=
  let body (neg : Bool) (ds : Str) : Int × Bool :=
    match ds with
    | [] => (0, true)
    | _ :: _ =>
      match parseDigits 0 ds with
      | none => (0, true)
      | some v =>
        if neg then
          if (2 : Int) ^ 63 < (v : Int) then (minInt, true) else (-(v : Int), false)
        else
          if (2 : Int) ^ 63 ≤ (v : Int) then (maxInt, true) else ((v : Int), false)
  match s with
  | '-' :: ds => body true ds
  | '+' :: ds => body false ds
  | ds => body false ds

/-- Go comparison `a < b` on strings: lexicographic. -/
def strLess : Str → Str → Bool
  | _, [] => false
  | [], _ :: _ => true
  | a :: as, b :: bs =>
    if a.toNat < b.toNat then true
    else if b.toNat < a.toNat then false
    else strLess as bs

/-! ## Results, panics and the log of external calls -/

/-- A Go `error` value. -/
structure GoError where
  msg : Str
deriving DecidableEq, Repr

/-- Fields of the Slack library types the program reads or writes. -/
structure AttachmentActionOption where
  Text : Str := []
  Value : Str := []
deriving DecidableEq, Repr

structure AttachmentAction where
  Name : Str := []
  Text : Str := []
  Style : Str := []
  Type_ : Str := []
  Value : Str := []
  Options : List AttachmentActionOption := []
  SelectedOptions : List AttachmentActionOption := []
deriving DecidableEq, Repr

structure AttachmentField where
  Title : Str := []
  Value : Str := []
  Short : Bool := false
deriving DecidableEq, Repr

structure Attachment where
  Color : Str := []
  Fallback : Str := []
  CallbackID : Str := []
  Pretext : Str := []
  Title : Str := []
  Text : Str := []
  Fields : List AttachmentField := []
  Actions : List AttachmentAction := []
deriving DecidableEq, Repr

structure Message where
  Text : Str := []
  Channel : Str := []
  Timestamp : Str := []
  Attachments : List Attachment := []
  ReplaceOriginal : Bool := false
deriving DecidableEq, Repr

structure User where
  ID : Str := []
  Name : Str := []
deriving DecidableEq, Repr

structure InteractionCallback where
  Actions : List AttachmentAction := []
  CallbackID : Str := []
  User : User := {}
  OriginalMessage : Message := {}
deriving DecidableEq, Repr

structure AppMentionEvent where
  User : Str := []
  Text : Str := []
  Channel : Str := []
deriving DecidableEq, Repr

/-- Payload of `EventsAPIEvent.InnerEvent.Data`, as far as the type switch of
the handler distinguishes it. -/
inductive InnerEventData where
  | appMention (ev : AppMentionEvent)
  | other
deriving DecidableEq, Repr

structure EventsAPIEvent where
  Type_ : Str := []
  InnerEvent : InnerEventData := .other
deriving DecidableEq, Repr

structure ChallengeResponse where
  Challenge : Str := []
deriving DecidableEq, Repr

/-- Argument of `api.PostMessage`. -/
inductive MsgOption where
  | attachments (a : Attachment)
  | text (s : Str) (escape : Bool)
deriving DecidableEq, Repr

/-- A text the handler puts in a response body: a plain string, or the JSON
text `json.Marshal` produced for a message. -/
inductive Text where
  | plain (s : Str)
  | json (m : Message)
deriving DecidableEq, Repr

/-- The empty string as a response body. -/
def Text.empty : Text := .plain []

/-- External calls, as they appear in the log. -/
inductive Call where
  | ListClusters
  | ListServices (cluster : Str)
  | ListTaskDefinitions (family : Str)
  | DescribeTaskDefinition (taskDefinition : Str)
  | UpdateService (cluster service taskDefinition : Str)
  | DescribeInstances
  | Decrypt (encrypted : Str)
  | PostMessage (token channel : Str) (opt : MsgOption)
deriving DecidableEq, Repr

/-- The calls that go to the ECS control plane. -/
def Call.isControlPlane : Call → Bool
  | .ListClusters => true
  | .ListServices _ => true
  | .ListTaskDefinitions _ => true
  | .DescribeTaskDefinition _ => true
  | .UpdateService _ _ _ => true
  | _ => false

/-- The one control-plane call that changes something. -/
def Call.isMutating : Call → Bool
  | .UpdateService _ _ _ => true
  | _ => false

/-- Outcome of a computation: a value, or a runtime panic. -/
inductive Res (α : Type) where
  | val (a : α)
  | panic
deriving DecidableEq, Repr

/-- A computation that may panic and that logs its external calls. -/
structure Run (α : Type) where
  res : Res α
  log : List Call
deriving DecidableEq, Repr

namespace Run

/-- Return a value without any call. -/
def ret {α : Type} (a : α) : Run α := ⟨.val a, []⟩

/-- Sequencing: a panic stops the computation, the logs are concatenated. -/
def andThen {α β : Type} (x : Run α) (f : α → Run β) : Run β :=
  match x.res with
  | .val a => ⟨(f a).res, x.log ++ (f a).log⟩
  | .panic => ⟨.panic, x.log⟩

/-- A runtime panic. -/
def crash {α : Type} : Run α := ⟨.panic, []⟩

/-- An external call `c` that answers `r`. -/
def call {α : Type} (c : Call) (r : α) : Run α := ⟨.val r, [c]⟩

/-- Go indexing `xs[i]`: panics when out of range. -/
def index {α : Type} (xs : List α) (i : Nat) : Run α :=
  match xs.get? i with
  | some a => ret a
  | none => crash

end Run

instance : Monad Run where
  pure := Run.ret
  bind := Run.andThen

/-! ## The environment of an invocation -/

structure envConfig where
  BotUserToken : Str
  VerificationToken : Str
  Region : Str
deriving DecidableEq, Repr

structure ContainerDefinition where
  Image : Str
deriving DecidableEq, Repr

/-- Result of `DescribeTaskDefinition`, as far as the program reads it. -/
structure TaskDefinition where
  ContainerDefinitions : List ContainerDefinition
deriving DecidableEq, Repr

structure Tag where
  Key : Str
  Value : Str
deriving DecidableEq, Repr

structure Instance where
  InstanceId : Str
  Tags : List Tag
deriving DecidableEq, Repr

structure Reservation where
  Instances : List Instance
deriving DecidableEq, Repr

/-- Everything outside the repository that an invocation depends on. -/
structure World where
  /-- Result of `envconfig.Process`. -/
  processEnv : Except GoError envConfig
  /-- ECS `ListClusters`: the cluster ARNs. -/
  ListClusters : Except GoError (List Str)
  /-- ECS `ListServices` of a cluster: the service ARNs. -/
  ListServices : Str → Except GoError (List Str)
  /-- ECS `ListTaskDefinitions` with a family name: the task definition ARNs. -/
  ListTaskDefinitions : Str → Except GoError (List Str)
  /-- ECS `DescribeTaskDefinition`. -/
  DescribeTaskDefinition : Str → Except GoError TaskDefinition
  /-- ECS `UpdateService(cluster, service, taskDefinition)`: its error, if any. -/
  UpdateService : Str → Str → Str → Option GoError
  /-- EC2 `DescribeInstances` filtered on the running state. -/
  DescribeInstances : Except GoError (List Reservation)
  /-- KMS `Decrypt` of a base64 text, read back as a string. -/
  Decrypt : Str → Except GoError Str
  /-- Go `sort.Slice` on a slice with a `less` function. -/
  sortSlice : {α : Type} → (α → α → Bool) → List α → List α

/-- The request, with what the library decoders make of its body. -/
structure APIGatewayProxyRequest where
  Body : Str
  /-- Result of `json.Unmarshal` of the unescaped `Body[8:]` into a
  `*slack.InteractionCallback`; `ok none` is the nil pointer JSON `null` gives. -/
  interaction : Except GoError (Option InteractionCallback)
  /-- Result of `slackevents.ParseEvent` on `Body` with a verification token. -/
  parseEvent : Str → Except GoError EventsAPIEvent
  /-- Result of `json.Unmarshal` of `Body` into a `*slackevents.ChallengeResponse`. -/
  challenge : Except GoError (Option ChallengeResponse)

structure Response where
  StatusCode : Int
  IsBase64Encoded : Bool
  Body : Text
  Headers : List (Str × Str)
deriving DecidableEq, Repr

/-! ## handler/aws.go -/

/-- TaskRevTag is set of ecs task revision num and its image tag. -/
structure TaskRevTag where
  revNum : Str
  imageTag : Str
deriving DecidableEq, Repr

/-- InstanceInfo is set of EC2 name and id. -/
structure InstanceInfo where
  name : Str
  id : Str
deriving DecidableEq, Repr

/-- The loop `for _, c := range arns { out = append(out, strings.Split(*c, "/")[1]) }`
shared by `ListEcsCluster`, `ListEcsService` and `ListTaskRevsAndImageTags`. -/
def namesOfArns : List Str → Run (List Str)
  | [] => pure []
  | c :: rest => do
    let name ← Run.index (Split c "/".toList) 1
    let names ← namesOfArns rest
    pure (name :: names)

/-- ListEcsCluster returns ecs cluster list. -/
def ListEcsCluster (W : World) : Run (Except GoError (List Str)) := do
  let result ← Run.call Call.ListClusters W.ListClusters
  match result with
  | .error err => pure (.error err)
  | .ok arns =>
    let clusters ← namesOfArns arns
    pure (.ok clusters)

/-- ListEcsService returns service names in specified cluster. -/
def ListEcsService (W : World) (cluster : Str) : Run (Except GoError (List Str)) := do
  let result ← Run.call (Call.ListServices cluster) (W.ListServices cluster)
  match result with
  | .error err => pure (.error err)
  | .ok arns =>
    let services ← namesOfArns arns
    pure (.ok services)

/-- The comparison given to `sort.Slice` in `ListTaskRevsAndImageTags`; the
errors of `strconv.Atoi` are dropped. -/
def revLess (a b : TaskRevTag) : Bool :=
  decide ((Atoi a.revNum).1 > (Atoi b.revNum).1)

/-- The loop of `ListTaskRevsAndImageTags` over the task definition names:
describe each, take the tag of its first container image and its revision. -/
def describeLoop (W : World) : List Str → Run (Except GoError (List TaskRevTag))
  | [] => pure (.ok [])
  | t :: rest => do
    let result ← Run.call (Call.DescribeTaskDefinition t) (W.DescribeTaskDefinition t)
    match result with
    | .error err => pure (.error err)
    | .ok td =>
      let c0 ← Run.index td.ContainerDefinitions 0
      let tag ← Run.index (Split c0.Image ":".toList) 1
      let rev ← Run.index (Split t ":".toList) 1
      let more ← describeLoop W rest
      match more with
      | .error err => pure (.error err)
      | .ok taskRevTags => pure (.ok ({ revNum := rev, imageTag := tag } :: taskRevTags))

/-- ListTaskRevsAndImageTags returns ecr tags (expected to be commit hash) of
the revisions of a task family. -/
def ListTaskRevsAndImageTags (W : World) (taskDefName : Str) :
    Run (Except GoError (List TaskRevTag)) := do
  let result ← Run.call (Call.ListTaskDefinitions taskDefName) (W.ListTaskDefinitions taskDefName)
  match result with
  | .error err => pure (.error err)
  | .ok arns =>
    let taskDefs ← namesOfArns arns
    let described ← describeLoop W taskDefs
    match described with
    | .error err => pure (.error err)
    | .ok taskRevTags => pure (.ok (W.sortSlice revLess taskRevTags))

/-- UpdateEcsService updates specified ecs service. -/
def UpdateEcsService (W : World) (cluster service taskDefRev : Str) : Run (Option GoError) :=
  Run.call (Call.UpdateService cluster service taskDefRev)
    (W.UpdateService cluster service taskDefRev)

/-- DecodeString decodes encrypted str with KMS. -/
def DecodeString (W : World) (encrypted : Str) : Run (Except GoError Str) :=
  Run.call (Call.Decrypt encrypted) (W.Decrypt encrypted)

/-- Innermost loop of `FilterInstances`: the `Name` tags of one instance whose
value starts with `pfx`. -/
def tagLoop (pfx : Str) (i : Instance) : List Tag → List InstanceInfo
  | [] => []
  | j :: rest =>
    if j.Key = "Name".toList then
      if HasPrefix j.Value pfx then
        { name := j.Value, id := i.InstanceId } :: tagLoop pfx i rest
      else tagLoop pfx i rest
    else tagLoop pfx i rest

/-- Loop of `FilterInstances` over the instances of a reservation. -/
def instanceLoop (pfx : Str) : List Instance → List InstanceInfo
  | [] => []
  | i :: rest => tagLoop pfx i i.Tags ++ instanceLoop pfx rest

/-- Loop of `FilterInstances` over the reservations. -/
def reservationLoop (pfx : Str) : List Reservation → List InstanceInfo
  | [] => []
  | r :: rest => instanceLoop pfx r.Instances ++ reservationLoop pfx rest

/-- The comparison given to `sort.Slice` in `FilterInstances`. -/
def nameLess (a b : InstanceInfo) : Bool := strLess a.name b.name

/-- FilterInstances returns instanceIds matched with prefix. -/
def FilterInstances (W : World) (pfx : Str) : Run (Except GoError (List InstanceInfo)) := do
  let result ← Run.call Call.DescribeInstances W.DescribeInstances
  match result with
  | .error err => pure (.error err)
  | .ok reservations =>
    pure (.ok (W.sortSlice nameLess (reservationLoop pfx reservations)))

/-! ## handler/main.go -/

/-- Build a response with the JSON content type. -/
def getResponseMsg (code : Int) (body : Text) : Response :=
  { StatusCode := code
    IsBase64Encoded := false
    Body := body
    Headers := [("Content-Type".toList, "application/json".toList)] }

/-- Go `json.Marshal` on a message.  The messages of this program are decoded
from JSON and then changed in string and list fields only, and those always
encode. -/
def jsonMarshal (m : Message) : Except GoError Text := .ok (.json m)

/-- Format slack message for responding to Interactive Message: the original
message with the first attachment updated. -/
def getResponseInteractiveMsg (originalMsg : Message) (text color : Str)
    (attachmentActs : List AttachmentAction) (fields : List AttachmentField)
    (callbackID : Str) : Run (Except GoError Text) :=
  match originalMsg.Attachments with
  | [] => Run.crash
  | a :: rest =>
    let a := if text ≠ [] then { a with Text := text } else a
    let a := if color ≠ [] then { a with Color := color } else a
    let a := if callbackID ≠ [] then { a with CallbackID := callbackID } else a
    let a := { a with Actions := attachmentActs, Fields := fields }
    let msg := { originalMsg with Attachments := a :: rest, ReplaceOriginal := true }
    match jsonMarshal msg with
    | .error err => pure (.error err)
    | .ok r => pure (.ok r)

/-- The `Cancel` button every menu carries. -/
def cancelButton : AttachmentAction :=
  { Name := "cancel".toList, Text := "Cancel".toList, Type_ := "button".toList,
    Style := "danger".toList }

/-- Go `slackevents.URLVerification`. -/
def URLVerification : Str := "url_verification".toList

/-- Go `slackevents.CallbackEvent`. -/
def CallbackEvent : Str := "event_callback".toList

/-- The usage text. -/
def helpMsg : Str :=
  "```\n".toList ++ "# Usage\n".toList ++
  "@<bot-user-name> : ECS deploy interactive menu\n".toList ++
  "@<bot-user-name> <instance name prefix> : Return instance Ids\n".toList ++
  "```\n".toList

/-- Handler is our lambda handler invoked by the `lambda.Start` function call. -/
def Handler (W : World) (request : APIGatewayProxyRequest) : Run (Response × Option GoError) :=
  match W.processEnv with
  | .error err => pure (getResponseMsg 500 Text.empty, some err)
  | .ok env =>
    let body := request.Body
    -- Handle Interactive User Response
    if HasPrefix body "payload".toList then
      if body.length < 8 then Run.crash else
      match request.interaction with
      | .error err => pure (getResponseMsg 500 Text.empty, some err)
      | .ok none => Run.crash
      | .ok (some i) =>
        match i.Actions with
        | [] => Run.crash
        | a0 :: _ =>
          -- User pushed cancel button
          if a0.Name = "cancel".toList then do
            let r ← getResponseInteractiveMsg i.OriginalMessage [] "#808080".toList []
              [{ Title := "@".toList ++ i.User.Name ++ " canceled.".toList, Value := [],
                 Short := false }] []
            match r with
            | .error err => pure (getResponseMsg 500 Text.empty, some err)
            | .ok r => pure (getResponseMsg 200 r, none)
          -- User selected ECS Cluster name
          else if a0.Name = "clusters".toList then
            match a0.SelectedOptions with
            | [] => Run.crash
            | o :: _ => do
              let selectedCluster := o.Value
              let services ← ListEcsService W selectedCluster
              match services with
              | .error err => pure (getResponseMsg 500 Text.empty, some err)
              | .ok services =>
                let opts := services.map
                  (fun s => ({ Text := s, Value := s } : AttachmentActionOption))
                let r ← getResponseInteractiveMsg i.OriginalMessage
                  ("Choose ECS Service in ".toList ++ selectedCluster) []
                  [{ Name := "services".toList, Type_ := "select".toList, Options := opts },
                   cancelButton] [] selectedCluster
                match r with
                | .error err => pure (getResponseMsg 500 Text.empty, some err)
                | .ok r => pure (getResponseMsg 200 r, none)
          -- User selected ECS Service name
          else if a0.Name = "services".toList then
            -- in this case, i.CallbackID has cluster name
            if !HasSuffix i.CallbackID "-cluster".toList then
              -- `err` is the nil error of the decoding above
              pure (getResponseMsg 500 Text.empty, none)
            else
            match a0.SelectedOptions with
            | [] => Run.crash
            | o :: _ => do
              let service := o.Value
              -- taskDefName: env prefix + service name
              let envName ← Run.index (Split i.CallbackID "-cluster".toList) 0
              let taskDefName := envName ++ "-".toList ++ service
              -- Get task definition revisions and its image tags
              let taskRevTags ← ListTaskRevsAndImageTags W taskDefName
              match taskRevTags with
              | .error err => pure (getResponseMsg 500 Text.empty, some err)
              | .ok taskRevTags =>
                let opts := taskRevTags.map (fun t =>
                  let taskRev := taskDefName ++ ":".toList ++ t.revNum
                  ({ Text := taskRev ++ " | ".toList ++ t.imageTag,
                     Value := taskRev ++ "/".toList ++ service } : AttachmentActionOption))
                let r ← getResponseInteractiveMsg i.OriginalMessage
                  "Choose image tag (commit hash)".toList []
                  [{ Name := "imgTags".toList, Type_ := "select".toList, Options := opts },
                   cancelButton] [] []
                match r with
                | .error err => pure (getResponseMsg 500 Text.empty, some err)
                | .ok r => pure (getResponseMsg 200 r, none)
          -- User selected ECS TaskDefinition + revision
          else if a0.Name = "imgTags".toList then
            match a0.SelectedOptions with
            | [] => Run.crash
            | o :: _ => do
              -- selectedTaskRevSvc <- "taskDefinition:Revision/servicename"
              let selectedTaskRevSvc := o.Value
              let shown ← Run.index (Split selectedTaskRevSvc "/".toList) 0
              let r ← getResponseInteractiveMsg i.OriginalMessage
                ("Deploy ".toList ++ shown ++ "?".toList) []
                [{ Name := "taskStart".toList, Text := "Start".toList,
                   Value := selectedTaskRevSvc, Type_ := "button".toList,
                   Style := "primary".toList },
                 cancelButton] [] []
              match r with
              | .error err => pure (getResponseMsg 500 Text.empty, some err)
              | .ok r => pure (getResponseMsg 200 r, none)
          -- User pushed Deploy start button
          else if a0.Name = "taskStart".toList then do
            let cluster := i.CallbackID
            let s := Split a0.Value "/".toList
            let taskDefRev ← Run.index s 0
            let service ← Run.index s 1
            let failed ← UpdateEcsService W cluster service taskDefRev
            match failed with
            | some err => pure (getResponseMsg 500 Text.empty, some err)
            | none =>
              let r ← getResponseInteractiveMsg i.OriginalMessage [] "#0174DF".toList []
                [{ Title := "@".toList ++ i.User.Name ++ " started deploy.".toList, Value := [],
                   Short := false }] []
              match r with
              | .error err => pure (getResponseMsg 500 Text.empty, some err)
              | .ok r => pure (getResponseMsg 200 r, none)
          -- Unmatched any case
          else pure (getResponseMsg 200 Text.empty, none)
    else do
      -- Handle Event API requests: a decryption error is only logged
      let decoded ← DecodeString W env.VerificationToken
      let verifyToken : Str := match decoded with
        | .ok t => t
        | .error _ => []
      match request.parseEvent verifyToken with
      | .error err => pure (getResponseMsg 500 Text.empty, some err)
      | .ok eventsAPIEvent =>
        -- Slack EventAPI url_verification event
        if eventsAPIEvent.Type_ = URLVerification then
          match request.challenge with
          | .error err => pure (getResponseMsg 500 Text.empty, some err)
          | .ok none => Run.crash
          | .ok (some r) =>
            pure ({ StatusCode := 200, IsBase64Encoded := false, Body := Text.plain r.Challenge,
                    Headers := [("Content-Type".toList, "text".toList)] }, none)
        -- Handle user mention to bot
        else if eventsAPIEvent.Type_ = CallbackEvent then do
          let decoded ← DecodeString W env.BotUserToken
          let BotUserToken : Str := match decoded with
            | .ok t => t
            | .error _ => []
          match eventsAPIEvent.InnerEvent with
          | .appMention ev =>
            match Split (TrimSpace ev.Text) " ".toList with
            | [] => Run.crash
            | _ :: m =>
              if m.length = 0 then do
                -- first, post ECS cluster select menu
                let clusters ← ListEcsCluster W
                match clusters with
                | .error err => pure (getResponseMsg 500 Text.empty, some err)
                | .ok clusters =>
                  let opts := clusters.map
                    (fun s => ({ Text := s, Value := s } : AttachmentActionOption))
                  let attachment : Attachment :=
                    { Text := "Choose ECS Cluster".toList, Color := "#ff8c00".toList,
                      CallbackID := "ecsdeploy".toList,
                      Actions := [{ Name := "clusters".toList, Type_ := "select".toList,
                                    Options := opts }, cancelButton] }
                  let _ ← Run.call
                    (Call.PostMessage BotUserToken ev.Channel (.attachments attachment)) ()
                  pure (getResponseMsg 200 Text.empty, none)
              -- Return Instance ids matched with prefix
              else if m.length = 1 ∧ m.head? ≠ some "help".toList then do
                let instances ← FilterInstances W (m.headD [])
                match instances with
                | .error err => pure (getResponseMsg 500 Text.empty, some err)
                | .ok instances =>
                  let fields := instances.map (fun i =>
                    ({ Title := i.name, Value := i.id, Short := false } : AttachmentField))
                  let attachment : Attachment :=
                    { Pretext := "*Instance ID List in ".toList ++ env.Region ++ "*".toList,
                      Color := "#0174DF".toList, Fields := fields }
                  let _ ← Run.call
                    (Call.PostMessage BotUserToken ev.Channel (.attachments attachment)) ()
                  pure (getResponseMsg 200 Text.empty, none)
              else do
                -- unmatched any command
                let _ ← Run.call
                  (Call.PostMessage BotUserToken ev.Channel (.text helpMsg false)) ()
                pure (getResponseMsg 200 Text.empty, none)
          | .other => pure (getResponseMsg 200 Text.empty, none)
        else pure (getResponseMsg 200 Text.empty, none)

/-! ## The chat platform: how a rendered message comes back with the next click -/

/-- The callback identifier Slack sends with a click on a message: that of the
attachment holding the controls, which is the first one. -/
def callbackOf (m : Message) : Str :=
  match m.Attachments with
  | a :: _ => a.CallbackID
  | [] => []

/-- A click of the user: an option chosen in a menu, or a button pushed. -/
inductive Trigger where
  | select (name value : Str)
  | button (name value : Str)
deriving DecidableEq, Repr

/-- The action Slack reports for a click. -/
def Trigger.action : Trigger → AttachmentAction
  | .select name value =>
    { Name := name, Type_ := "select".toList, SelectedOptions := [{ Value := value }] }
  | .button name value =>
    { Name := name, Type_ := "button".toList, Value := value }

/-- The interaction Slack reports when user `u` clicks on message `m`. -/
def interactionOf (u : User) (m : Message) (t : Trigger) : InteractionCallback :=
  { Actions := [t.action], CallbackID := callbackOf m, User := u, OriginalMessage := m }

/-- The request that carries an interaction; of its body only the form field
name is spelled out, the JSON text being represented by `interaction`. -/
def interactionRequest (i : InteractionCallback) : APIGatewayProxyRequest :=
  { Body := "payload=".toList
    interaction := .ok (some i)
    parseEvent := fun _ => .error ⟨"not an event".toList⟩
    challenge := .error ⟨"not a challenge".toList⟩ }

/-- What a run of clicks leaves behind: the messages rendered, in order, and
the external calls made. -/
structure FlowTrace where
  rendered : List Message
  calls : List Call
deriving DecidableEq, Repr

/-- A run of `Handler` over a sequence of clicks by user `u`, starting on
message `m`.  Each click is reported on the message the previous response
rendered.  When an invocation renders no message (it panics, or answers with a
plain body) there is nothing for the next click to be made on and the run
ends there. -/
def runFlow (W : World) (u : User) : Message → List Trigger → FlowTrace
  | _, [] => ⟨[], []⟩
  | m, t :: ts =>
    let out := Handler W (interactionRequest (interactionOf u m t))
    match out.res with
    | .val (resp, _) =>
      match resp.Body with
      | .json m1 =>
        let more := runFlow W u m1 ts
        ⟨m1 :: more.rendered, out.log ++ more.calls⟩
      | .plain _ => ⟨[], out.log⟩
    | .panic => ⟨[], out.log⟩

/-- The four clicks of a deployment: cluster `c`, service `s`, revision `r`
of that service, start. -/
def deployClicks (c s r : Str) : List Trigger :=
  [ .select "clusters".toList c,
    .select "services".toList s,
    .select "imgTags".toList (r ++ "/".toList ++ s),
    .button "taskStart".toList (r ++ "/".toList ++ s) ]

/-! ## A concrete world -/

/-- One step of Go `insertionSortLessFunc`: the new element moves left past
every element it is less than.  The sorted part is held last element first. -/
def insertBack {α : Type} (less : α → α → Bool) (x : α) : List α → List α
  | [] => [x]
  | y :: ys => if less x y then y :: insertBack less x ys else x :: y :: ys

/-- Go `insertionSortLessFunc`, which is what `sort.Slice` runs on a slice of
at most 12 elements. -/
def insertionSort {α : Type} (less : α → α → Bool) (xs : List α) : List α :=
  (xs.foldl (fun acc x => insertBack less x acc) []).reverse

/-- A world with one cluster `prod-cluster`, one service `web` with revisions
9 and 10, and three running instances. -/
def demoWorld : World :=
  { processEnv := .ok { BotUserToken := "bot-token".toList,
                        VerificationToken := "verification".toList,
                        Region := "ap-northeast-1".toList }
    ListClusters := .ok ["arn:aws:ecs:ap-northeast-1:1:cluster/prod-cluster".toList]
    ListServices := fun _ => .ok ["arn:aws:ecs:ap-northeast-1:1:service/web".toList]
    ListTaskDefinitions := fun family =>
      .ok ["arn:aws:ecs:ap-northeast-1:1:task-definition/".toList ++ family ++ ":9".toList,
           "arn:aws:ecs:ap-northeast-1:1:task-definition/".toList ++ family ++ ":10".toList]
    DescribeTaskDefinition := fun _ =>
      .ok { ContainerDefinitions := [{ Image := "1.dkr.ecr.amazonaws.com/web:c0ffee".toList }] }
    UpdateService := fun _ _ _ => none
    DescribeInstances := .ok
      [{ Instances := [{ InstanceId := "i-02".toList,
                         Tags := [{ Key := "Name".toList, Value := "web-b".toList }] },
                       { InstanceId := "i-01".toList,
                         Tags := [{ Key := "env".toList, Value := "web".toList },
                                  { Key := "Name".toList, Value := "web-a".toList }] }] },
       { Instances := [{ InstanceId := "i-03".toList,
                         Tags := [{ Key := "Name".toList, Value := "db".toList }] }] }]
    Decrypt := fun s => .ok s
    sortSlice := fun less xs => insertionSort less xs }

/-- The demo world with a service ARN in the long format, which names the
cluster before the service. -/
def longArnWorld : World :=
  { demoWorld with
    ListServices := fun _ =>
      .ok ["arn:aws:ecs:ap-northeast-1:1:service/prod-cluster/web".toList] }

/-- The demo world with images pulled from a registry given with its port. -/
def registryWorld : World :=
  { demoWorld with
    DescribeTaskDefinition := fun _ =>
      .ok { ContainerDefinitions := [{ Image := "registry.example.com:5000/web:c0ffee".toList }] } }

/-- The demo world with images given without a tag. -/
def noTagWorld : World :=
  { demoWorld with
    DescribeTaskDefinition := fun _ =>
      .ok { ContainerDefinitions := [{ Image := "nginx".toList }] } }

/-- The demo world with two revisions whose numbers exceed the largest `int`. -/
def overflowWorld : World :=
  { demoWorld with
    ListTaskDefinitions := fun _ =>
      .ok ["arn:aws:ecs:ap-northeast-1:1:task-definition/prod-web:9223372036854775808".toList,
           "arn:aws:ecs:ap-northeast-1:1:task-definition/prod-web:9223372036854775809".toList] }

/-- The demo world with a revision number written with a leading zero. -/
def paddedWorld : World :=
  { demoWorld with
    ListTaskDefinitions := fun _ =>
      .ok ["arn:aws:ecs:ap-northeast-1:1:task-definition/prod-web:7".toList,
           "arn:aws:ecs:ap-northeast-1:1:task-definition/prod-web:07".toList] }

/-- A mention of the bot with one argument, `web`. -/
def mentionRequest : APIGatewayProxyRequest :=
  { Body := "\x7b\"type\":\"event_callback\"\x7d".toList
    interaction := .error ⟨"not an interaction".toList⟩
    parseEvent := fun _ =>
      .ok { Type_ := CallbackEvent
            InnerEvent := .appMention
              { User := "U1".toList, Text := "<@UBOT> web".toList, Channel := "C1".toList } }
    challenge := .error ⟨"not a challenge".toList⟩ }

/-- The message the mention path posts, as Slack hands it back. -/
def menuMessage : Message :=
  { Channel := "C1".toList
    Attachments := [{ Text := "Choose ECS Cluster".toList, Color := "#ff8c00".toList,
                      CallbackID := "ecsdeploy".toList,
                      Actions := [{ Name := "clusters".toList, Type_ := "select".toList,
                                    Options := [{ Text := "prod-cluster".toList,
                                                  Value := "prod-cluster".toList }] },
                                  cancelButton] }] }

/-- The user of the examples. -/
def alice : User := { ID := "U1".toList, Name := "alice".toList }

/-! ## Vocabulary of the statements -/

/-- The part of `s` after its first `sep`, up to the next `sep` or the end. -/
def secondSegment (sep : Char) (s : Str) : Str :=
  ((s.dropWhile (fun x => x != sep)).drop 1).takeWhile (fun x => x != sep)

/-- The part of `s` after its last `sep`: `s` with everything up to and
including its last `sep` removed. -/
def afterLast (sep : Char) (s : Str) : Str :=
  (s.reverse.takeWhile (fun x => x != sep)).reverse

/-- The image reference of the first container of task definition `t`, as the
control plane describes it (empty when there is none). -/
def firstImage (W : World) (t : Str) : Str :=
  match W.DescribeTaskDefinition t with
  | .ok td =>
    match td.ContainerDefinitions with
    | c0 :: _ => c0.Image
    | [] => []
  | .error _ => []

/-- The control plane lists the ARNs `arns` for `family`, each of the form
`.../name:revision`, and describes each of them with at least one container
whose image reference contains `:`. -/
structure Fetched (W : World) (family : Str) (arns : List Str) : Prop where
  listed : W.ListTaskDefinitions family = .ok arns
  slash : ∀ a ∈ arns, '/' ∈ a
  colon : ∀ a ∈ arns, ':' ∈ secondSegment '/' a
  described : ∀ a ∈ arns, ∃ td, W.DescribeTaskDefinition (secondSegment '/' a) = .ok td ∧
    td.ContainerDefinitions ≠ []
  image : ∀ a ∈ arns, ':' ∈ firstImage W (secondSegment '/' a)

/-- The records `ListTaskRevsAndImageTags` builds from the listed ARNs, before
sorting: the revision after the `:` of the name, the tag from the image. -/
def fetchedRecords (W : World) (arns : List Str) : List TaskRevTag :=
  arns.map fun a =>
    { revNum := secondSegment ':' (secondSegment '/' a),
      imageTag := secondSegment ':' (firstImage W (secondSegment '/' a)) }

/-- The number a string of decimal digits denotes. -/
def decimalValue (s : Str) : Nat :=
  s.foldl (fun acc c => acc * 10 + (c.toNat - 48)) 0

/-- A non-empty string of decimal digits. -/
def IsDecimal (s : Str) : Prop :=
  s ≠ [] ∧ ∀ c ∈ s, 48 ≤ c.toNat ∧ c.toNat ≤ 57

/-- What Go documents for `sort.Slice`: the result is a rearrangement of the
slice, and when `less` is a strict weak ordering no element of the result is
less than an element before it. -/
structure World.SortsSlices (W : World) : Prop where
  perm : ∀ {α : Type} (less : α → α → Bool) (xs : List α), (W.sortSlice less xs).Perm xs
  sorted : ∀ {α : Type} (less : α → α → Bool) (xs : List α),
    (∀ a b, less a b = true → less b a = false) →
    (∀ a b c, less a b = false → less b c = false → less a c = false) →
    (W.sortSlice less xs).Pairwise (fun a b => less b a = false)

/-- The (name, id) pairs of the instances of an inventory whose `Name` tag
value starts with `pfx`. -/
def matchingInstances (pfx : Str) (inventory : List Reservation) : List InstanceInfo :=
  inventory.flatMap fun r =>
    r.Instances.flatMap fun i =>
      (i.Tags.filter fun j => j.Key = "Name".toList ∧ pfx.isPrefixOf j.Value = true).map
        fun j => { name := j.Value, id := i.InstanceId }

/-- The token `DecodeString` leaves the handler with: the decrypted text, or
the empty string when decryption fails. -/
def tokenOf (W : World) (encrypted : Str) : Str :=
  match W.Decrypt encrypted with
  | .ok t => t
  | .error _ => []

/-- The task family the services step derives from the callback identifier
`cb` and the service `s`: the text of `cb` before its first `-cluster`, then
`-`, then `s`. -/
def familyOf (cb s : Str) : Str :=
  (Split cb "-cluster".toList).headD [] ++ "-".toList ++ s

/-- The payload shapes on which the handler stops before any external call: an
empty action list; a `clusters` or `imgTags` action, or a `services` action
under a callback identifier ending with `-cluster`, with no selected option; a
`taskStart` action whose value contains no `/`; a `cancel` or `imgTags` action
on an original message with no attachment. -/
def Malformed (i : InteractionCallback) : Prop :=
  i.Actions = [] ∨
  ∃ a0, i.Actions.head? = some a0 ∧
    (((a0.Name = "clusters".toList ∨ a0.Name = "imgTags".toList ∨
        (a0.Name = "services".toList ∧ HasSuffix i.CallbackID "-cluster".toList = true)) ∧
      a0.SelectedOptions = []) ∨
     (a0.Name = "taskStart".toList ∧ '/' ∉ a0.Value) ∨
     ((a0.Name = "cancel".toList ∨ a0.Name = "imgTags".toList) ∧
      i.OriginalMessage.Attachments = []))

/-- A computation that makes no mutating call. -/
def Quiet {α : Type} (x : Run α) : Prop :=
  ∀ c ∈ x.log, c.isMutating = false

/-- The request is an interaction callback that decodes to `i`: a body
`payload=...` whose JSON text denotes `i`. -/
def IsInteraction (request : APIGatewayProxyRequest) (i : InteractionCallback) : Prop :=
  HasPrefix request.Body "payload".toList = true ∧ 8 ≤ request.Body.length ∧
    request.interaction = .ok (some i)

/-! ## Laws of `Run` -/

@[simp] theorem Run.bind_eq_andThen {α β : Type} (x : Run α) (f : α → Run β) :
    x >>= f = Run.andThen x f := rfl

@[simp] theorem Run.pure_eq_ret {α : Type} (a : α) : (pure a : Run α) = Run.ret a := rfl

@[simp] theorem Run.ret_andThen {α β : Type} (a : α) (f : α → Run β) :
    Run.andThen (Run.ret a) f = f a := by
  simp [Run.andThen, Run.ret]

@[simp] theorem Run.crash_andThen {α β : Type} (f : α → Run β) :
    Run.andThen (Run.crash : Run α) f = Run.crash := by
  simp [Run.andThen, Run.crash]

@[simp] theorem Run.call_andThen {α β : Type} (c : Call) (r : α) (f : α → Run β) :
    Run.andThen (Run.call c r) f = ⟨(f r).res, c :: (f r).log⟩ := by
  simp [Run.andThen, Run.call]

@[simp] theorem Run.mk_andThen_val {α β : Type} (a : α) (l : List Call) (f : α → Run β) :
    Run.andThen ⟨.val a, l⟩ f = ⟨(f a).res, l ++ (f a).log⟩ := by
  simp [Run.andThen]

@[simp] theorem Run.mk_andThen_panic {α β : Type} (l : List Call) (f : α → Run β) :
    Run.andThen (⟨.panic, l⟩ : Run α) f = ⟨.panic, l⟩ := by
  simp [Run.andThen]

@[simp] theorem Run.ret_res {α : Type} (a : α) : (Run.ret a).res = .val a := rfl

@[simp] theorem Run.ret_log {α : Type} (a : α) : (Run.ret a).log = [] := rfl

@[simp] theorem Run.crash_res {α : Type} : (Run.crash : Run α).res = .panic := rfl

@[simp] theorem Run.crash_log {α : Type} : (Run.crash : Run α).log = [] := rfl

/-- A request built by `interactionRequest` is the interaction it carries. -/
theorem isInteraction_interactionRequest (i : InteractionCallback) :
    IsInteraction (interactionRequest i) i :=
  ⟨rfl, by simp [interactionRequest], rfl⟩

/-- A list with a first element is a cons. -/
theorem cons_of_head? {α : Type} {l : List α} {a : α} (h : l.head? = some a) :
    ∃ rest, l = a :: rest := by
  cases l with
  | nil => simp at h
  | cons x xs => exact ⟨xs, by simp at h; rw [h]⟩

/-! ## Laws of `Split` with a one-character separator -/

theorem Index_single_not_mem (c : Char) (s : Str) (h : c ∉ s) : Index [c] s = none := by
  induction s with
  | nil => simp [Index, List.isPrefixOf]
  | cons x xs ih =>
    have hx : ¬ c = x := fun e => h (by simp [e])
    have hxs : c ∉ xs := fun m => h (List.mem_cons_of_mem _ m)
    simp [Index, List.isPrefixOf, hx, ih hxs]

theorem Index_single_append (c : Char) (u v : Str) (hu : c ∉ u) :
    Index [c] (u ++ c :: v) = some u.length := by
  induction u with
  | nil => simp [Index, List.isPrefixOf]
  | cons x xs ih =>
    have hx : ¬ c = x := fun e => hu (by simp [e])
    have hxs : c ∉ xs := fun m => hu (List.mem_cons_of_mem _ m)
    simp [Index, List.isPrefixOf, hx, ih hxs]

theorem splitLoop_single_not_mem (c : Char) (fuel : Nat) (s : Str) (h : c ∉ s) :
    splitLoop [c] fuel s = [s] := by
  cases fuel <;> simp [splitLoop, Index_single_not_mem c s h]

theorem splitLoop_single_append (c : Char) (fuel : Nat) (u v : Str) (hu : c ∉ u) :
    splitLoop [c] (fuel + 1) (u ++ c :: v) = u :: splitLoop [c] fuel v := by
  simp [splitLoop, Index_single_append c u v hu]

/-- A string without the separator is its own single piece. -/
theorem Split_single_not_mem (c : Char) (s : Str) (h : c ∉ s) : Split s [c] = [s] := by
  simp [Split, splitLoop_single_not_mem c _ s h]

/-- Up to the first separator, `Split` cuts off the text before it. -/
theorem Split_single_append (c : Char) (u v : Str) (hu : c ∉ u) :
    Split (u ++ c :: v) [c] = u :: splitLoop [c] (u.length + v.length) v := by
  have hlen : (u ++ c :: v).length = (u.length + v.length) + 1 := by simp; omega
  simp only [Split, hlen]
  simp [splitLoop_single_append c _ u v hu]

/-- Two pieces joined by one separator are split back into the two pieces. -/
theorem Split_single_two (c : Char) (u v : Str) (hu : c ∉ u) (hv : c ∉ v) :
    Split (u ++ c :: v) [c] = [u, v] := by
  rw [Split_single_append c u v hu, splitLoop_single_not_mem c _ v hv]

/-- A string that contains `c` is cut at its first `c`. -/
theorem exists_first_occurrence (c : Char) (s : Str) (h : c ∈ s) :
    ∃ u v, s = u ++ c :: v ∧ c ∉ u := by
  induction s with
  | nil => simp at h
  | cons x xs ih =>
    by_cases hx : x = c
    · exact ⟨[], xs, by simp [hx], by simp⟩
    · have hm : c ∈ xs := by
        rcases List.mem_cons.mp h with e | m
        · exact absurd e.symm hx
        · exact m
      obtain ⟨u, v, e, hu⟩ := ih hm
      refine ⟨x :: u, v, by simp [e], ?_⟩
      intro m
      rcases List.mem_cons.mp m with e1 | m1
      · exact hx e1.symm
      · exact hu m1

theorem takeWhile_ne_of_not_mem (c : Char) (s : Str) (h : c ∉ s) :
    s.takeWhile (fun x => x != c) = s := by
  induction s with
  | nil => rfl
  | cons x xs ih =>
    have hx : ¬ x = c := fun e => h (by simp [e])
    have hxs : c ∉ xs := fun m => h (List.mem_cons_of_mem _ m)
    have hb : (x != c) = true := by simp [hx]
    simp [List.takeWhile_cons, hb, ih hxs]

theorem takeWhile_ne_append (c : Char) (u v : Str) (hu : c ∉ u) :
    (u ++ c :: v).takeWhile (fun x => x != c) = u := by
  induction u with
  | nil => simp [List.takeWhile]
  | cons x xs ih =>
    have hx : ¬ x = c := fun e => hu (by simp [e])
    have hxs : c ∉ xs := fun m => hu (List.mem_cons_of_mem _ m)
    have hb : (x != c) = true := by simp [hx]
    simp [List.takeWhile_cons, hb, ih hxs]

theorem dropWhile_ne_append (c : Char) (u v : Str) (hu : c ∉ u) :
    (u ++ c :: v).dropWhile (fun x => x != c) = c :: v := by
  induction u with
  | nil => simp [List.dropWhile]
  | cons x xs ih =>
    have hx : ¬ x = c := fun e => hu (by simp [e])
    have hxs : c ∉ xs := fun m => hu (List.mem_cons_of_mem _ m)
    have hb : (x != c) = true := by simp [hx]
    simp [List.dropWhile_cons, hb, ih hxs]

/-- With enough fuel the first piece the loop cuts is the text before the
first separator. -/
theorem splitLoop_single_head (c : Char) (fuel : Nat) (v : Str) (hfuel : v.length ≤ fuel) :
    (splitLoop [c] fuel v).head? = some (v.takeWhile (fun x => x != c)) := by
  by_cases h : c ∈ v
  · obtain ⟨u, w, e, hu⟩ := exists_first_occurrence c v h
    subst e
    cases fuel with
    | zero => simp at hfuel
    | succ k => simp [splitLoop_single_append c k u w hu, takeWhile_ne_append c u w hu]
  · simp [splitLoop_single_not_mem c fuel v h, takeWhile_ne_of_not_mem c v h]

/-- The second piece of `Split` on a string containing the separator. -/
theorem Split_single_second (c : Char) (s : Str) (h : c ∈ s) :
    (Split s [c])[1]? = some (secondSegment c s) := by
  obtain ⟨u, v, e, hu⟩ := exists_first_occurrence c s h
  subst e
  rw [Split_single_append c u v hu]
  have hh := splitLoop_single_head c (u.length + v.length) v (by omega)
  have hseg : secondSegment c (u ++ c :: v) = v.takeWhile (fun x => x != c) := by
    simp [secondSegment, dropWhile_ne_append c u v hu]
  rw [hseg]
  cases hl : splitLoop [c] (u.length + v.length) v with
  | nil => simp [hl] at hh
  | cons y ys => simp [hl] at hh; simp [hh]

/-- On a string with exactly one separator the second segment is everything
after the last, and only, separator. -/
theorem secondSegment_eq_afterLast (c : Char) (s : Str) (h : s.count c = 1) :
    secondSegment c s = afterLast c s := by
  have hm : c ∈ s := List.count_pos_iff.mp (by omega)
  obtain ⟨u, v, e, hu⟩ := exists_first_occurrence c s hm
  subst e
  have hcu : u.count c = 0 := List.count_eq_zero.mpr hu
  have hv : c ∉ v := by
    apply List.count_eq_zero.mp
    simp [List.count_append, hcu] at h
    exact h
  have hvr : c ∉ v.reverse := by simpa using hv
  have h1 : secondSegment c (u ++ c :: v) = v := by
    simp [secondSegment, dropWhile_ne_append c u v hu, takeWhile_ne_of_not_mem c v hv]
  have h2 : afterLast c (u ++ c :: v) = v := by
    have e : (u ++ c :: v).reverse = v.reverse ++ c :: u.reverse := by simp
    simp [afterLast, e, takeWhile_ne_append c v.reverse u.reverse hvr]
  rw [h1, h2]

/-- The loop over ARNs that all contain `/` returns the second segment of each. -/
theorem namesOfArns_ok (arns : List Str) (h : ∀ a ∈ arns, '/' ∈ a) :
    namesOfArns arns = Run.ret (arns.map (secondSegment '/')) := by
  induction arns with
  | nil => rfl
  | cons a rest ih =>
    have ha : '/' ∈ a := h a (by simp)
    have hr : ∀ b ∈ rest, '/' ∈ b := fun b m => h b (List.mem_cons_of_mem _ m)
    have hs := Split_single_second '/' a ha
    simp [namesOfArns, Run.index, ih hr, hs, Run.ret]

/-- The describing loop on well-formed task definitions returns one record
for each, in order, and describes each once. -/
theorem describeLoop_ok (W : World) (ts : List Str)
    (hcolon : ∀ t ∈ ts, ':' ∈ t)
    (hdesc : ∀ t ∈ ts, ∃ td, W.DescribeTaskDefinition t = .ok td ∧ td.ContainerDefinitions ≠ [])
    (himg : ∀ t ∈ ts, ':' ∈ firstImage W t) :
    describeLoop W ts =
      ⟨.val (.ok (ts.map fun t =>
          { revNum := secondSegment ':' t, imageTag := secondSegment ':' (firstImage W t) })),
        ts.map Call.DescribeTaskDefinition⟩ := by
  induction ts with
  | nil => rfl
  | cons t rest ih =>
    have ih1 := ih (fun x m => hcolon x (List.mem_cons_of_mem _ m))
      (fun x m => hdesc x (List.mem_cons_of_mem _ m))
      (fun x m => himg x (List.mem_cons_of_mem _ m))
    obtain ⟨td, htd, hne⟩ := hdesc t (by simp)
    have hi := himg t (by simp)
    have hc := hcolon t (by simp)
    cases hcd : td.ContainerDefinitions with
    | nil => exact absurd hcd hne
    | cons c0 cs =>
      have hfi : firstImage W t = c0.Image := by simp [firstImage, htd, hcd]
      rw [hfi] at hi
      have h1 := Split_single_second ':' c0.Image hi
      have h2 := Split_single_second ':' t hc
      simp [describeLoop, htd, hcd, Run.index, h1, h2, ih1, hfi, Run.ret]

/-- With a well-formed listing, `ListTaskRevsAndImageTags` returns the sorted
records and makes one listing call and one describing call per task definition. -/
theorem ListTaskRevsAndImageTags_ok (W : World) (family : Str) (arns : List Str)
    (h : Fetched W family arns) :
    ListTaskRevsAndImageTags W family =
      ⟨.val (.ok (W.sortSlice revLess (arns.map fun a =>
          { revNum := secondSegment ':' (secondSegment '/' a),
            imageTag := secondSegment ':' (firstImage W (secondSegment '/' a)) }))),
        Call.ListTaskDefinitions family ::
          arns.map (fun a => Call.DescribeTaskDefinition (secondSegment '/' a))⟩ := by
  have hd := describeLoop_ok W (arns.map (secondSegment '/'))
    (by intro t m; obtain ⟨a, ha, e⟩ := List.mem_map.mp m; subst e; exact h.colon a ha)
    (by intro t m; obtain ⟨a, ha, e⟩ := List.mem_map.mp m; subst e; exact h.described a ha)
    (by intro t m; obtain ⟨a, ha, e⟩ := List.mem_map.mp m; subst e; exact h.image a ha)
  simp [ListTaskRevsAndImageTags, h.listed, namesOfArns_ok arns h.slash, hd, Run.ret,
    List.map_map, Function.comp_def]

/-- The demo world lists two well-formed revisions for the family `prod-web`. -/
theorem demoWorld_fetched :
    Fetched demoWorld "prod-web".toList
      ["arn:aws:ecs:ap-northeast-1:1:task-definition/prod-web:9".toList,
       "arn:aws:ecs:ap-northeast-1:1:task-definition/prod-web:10".toList] where
  listed := rfl
  slash := by
    intro a m
    simp only [List.mem_cons, List.mem_singleton, List.not_mem_nil, or_false] at m
    rcases m with rfl | rfl <;> decide
  colon := by
    intro a m
    simp only [List.mem_cons, List.mem_singleton, List.not_mem_nil, or_false] at m
    rcases m with rfl | rfl <;> decide
  described := by
    intro a _
    exact ⟨_, rfl, by simp⟩
  image := by
    intro a m
    simp only [List.mem_cons, List.mem_singleton, List.not_mem_nil, or_false] at m
    rcases m with rfl | rfl <;> decide

/-! ## The cluster marker -/

theorem splitLoop_ne_nil (sep : Str) (fuel : Nat) (s : Str) : splitLoop sep fuel s ≠ [] := by
  cases fuel with
  | zero => simp [splitLoop]
  | succ k =>
    cases h : Index sep s <;> simp [splitLoop, h]

/-- With a non-empty separator `Split` always has a first piece. -/
theorem Split_head (s sep : Str) (hsep : sep ≠ []) :
    (Split s sep)[0]? = some ((Split s sep).headD []) := by
  have h : Split s sep = splitLoop sep s.length s := by simp [Split, hsep]
  rw [h]
  cases hl : splitLoop sep s.length s with
  | nil => exact absurd hl (splitLoop_ne_nil sep _ s)
  | cons x xs => simp

/-- The marker `-cluster` does not overlap itself: if it starts inside a
non-empty text `q` followed by the marker, it lies within `q`. -/
theorem marker_not_straddling (q : Str) (hq : q ≠ [])
    (h : ['-', 'c', 'l', 'u', 's', 't', 'e', 'r'].isPrefixOf q = false) :
    ['-', 'c', 'l', 'u', 's', 't', 'e', 'r'].isPrefixOf
      (q ++ ['-', 'c', 'l', 'u', 's', 't', 'e', 'r']) = false := by
  rcases q with _ | ⟨q1, _ | ⟨q2, _ | ⟨q3, _ | ⟨q4, _ | ⟨q5, _ | ⟨q6, _ | ⟨q7, _ | ⟨q8, q9⟩⟩⟩⟩⟩⟩⟩⟩
  · exact absurd rfl hq
  all_goals simp [List.isPrefixOf] at h ⊢
  all_goals assumption

/-- In `p` followed by a separator that does not overlap itself, with no
separator inside `p`, the first separator starts where `p` ends. -/
theorem Index_append_self (sep p : Str)
    (hstr : ∀ q : Str, q ≠ [] → sep.isPrefixOf q = false → sep.isPrefixOf (q ++ sep) = false)
    (hp : Index sep p = none) :
    Index sep (p ++ sep) = some p.length := by
  induction p with
  | nil =>
    cases sep with
    | nil => rfl
    | cons x xs =>
      have hr : (x :: xs).isPrefixOf (x :: xs) = true := by
        rw [List.isPrefixOf_iff_prefix]
      simp only [List.nil_append, Index, hr, if_true, List.length_nil]
  | cons c cs ih =>
    have hnp : sep.isPrefixOf (c :: cs) = false := by
      cases hb : sep.isPrefixOf (c :: cs) with
      | false => rfl
      | true => simp only [Index, hb, if_true] at hp; exact absurd hp (by simp)
    have hcs : Index sep cs = none := by
      simp only [Index, hnp] at hp
      cases hi : Index sep cs with
      | none => rfl
      | some k => rw [hi] at hp; simp at hp
    have hs := hstr (c :: cs) (by simp) hnp
    have e : c :: cs ++ sep = c :: (cs ++ sep) := rfl
    rw [e] at hs ⊢
    simp only [Index, hs, ih hcs]
    simp

/-- The text before the first marker of `p` followed by the marker is `p`,
when `p` contains no marker. -/
theorem Split_marker_head (p : Str) (hp : Index "-cluster".toList p = none) :
    (Split (p ++ "-cluster".toList) "-cluster".toList).headD [] = p := by
  have hi := Index_append_self "-cluster".toList p
    (fun q hq h => marker_not_straddling q hq h) hp
  have hne : "-cluster".toList ≠ [] := by decide
  have hlen : (p ++ "-cluster".toList).length = (p.length + 7) + 1 := by
    rw [List.length_append]; rfl
  rw [Split, if_neg hne, hlen, splitLoop, hi]
  simp

/-! ## Sorting -/

theorem insertBack_perm {α : Type} (less : α → α → Bool) (x : α) (acc : List α) :
    (insertBack less x acc).Perm (x :: acc) := by
  induction acc with
  | nil => exact List.Perm.refl _
  | cons y ys ih =>
    by_cases h : less x y = true
    · simp only [insertBack, h, if_true]
      exact (List.Perm.cons y ih).trans (List.Perm.swap x y ys)
    · simp only [insertBack, h]
      exact List.Perm.refl _

theorem insertBack_sorted {α : Type} (less : α → α → Bool)
    (asym : ∀ a b, less a b = true → less b a = false)
    (negtrans : ∀ a b c, less a b = false → less b c = false → less a c = false)
    (x : α) (acc : List α) (h : acc.Pairwise (fun a b => less a b = false)) :
    (insertBack less x acc).Pairwise (fun a b => less a b = false) := by
  induction acc with
  | nil => simp [insertBack]
  | cons y ys ih =>
    obtain ⟨hy, hys⟩ := List.pairwise_cons.mp h
    by_cases hx : less x y = true
    · simp only [insertBack, hx, if_true]
      refine List.pairwise_cons.mpr ⟨?_, ih hys⟩
      intro z hz
      rcases List.mem_cons.mp ((insertBack_perm less x ys).mem_iff.mp hz) with e | m
      · subst e; exact asym _ _ hx
      · exact hy z m
    · have hx0 : less x y = false := by simpa using hx
      simp only [insertBack, hx]
      refine List.pairwise_cons.mpr ⟨?_, h⟩
      intro z hz
      rcases List.mem_cons.mp hz with e | m
      · subst e; exact hx0
      · exact negtrans x y z hx0 (hy z m)

theorem foldl_insertBack_perm {α : Type} (less : α → α → Bool) (xs acc : List α) :
    (xs.foldl (fun acc x => insertBack less x acc) acc).Perm (xs ++ acc) := by
  induction xs generalizing acc with
  | nil => exact List.Perm.refl _
  | cons x xs ih =>
    simp only [List.foldl_cons]
    refine (ih (insertBack less x acc)).trans ?_
    refine ((insertBack_perm less x acc).append_left xs).trans ?_
    exact List.perm_middle

theorem foldl_insertBack_sorted {α : Type} (less : α → α → Bool)
    (asym : ∀ a b, less a b = true → less b a = false)
    (negtrans : ∀ a b c, less a b = false → less b c = false → less a c = false)
    (xs acc : List α) (h : acc.Pairwise (fun a b => less a b = false)) :
    (xs.foldl (fun acc x => insertBack less x acc) acc).Pairwise
      (fun a b => less a b = false) := by
  induction xs generalizing acc with
  | nil => exact h
  | cons x xs ih =>
    simp only [List.foldl_cons]
    exact ih _ (insertBack_sorted less asym negtrans x acc h)

/-- Insertion sort meets the contract of `sort.Slice`. -/
theorem demoWorld_sortsSlices : demoWorld.SortsSlices where
  perm := by
    intro α less xs
    show (insertionSort less xs).Perm xs
    unfold insertionSort
    refine (List.reverse_perm _).trans ?_
    simpa using foldl_insertBack_perm less xs []
  sorted := by
    intro α less xs asym negtrans
    show (insertionSort less xs).Pairwise _
    unfold insertionSort
    rw [List.pairwise_reverse]
    exact foldl_insertBack_sorted less asym negtrans xs [] List.Pairwise.nil

theorem revLess_asymm (a b : TaskRevTag) (h : revLess a b = true) : revLess b a = false := by
  simp only [revLess, decide_eq_true_eq, decide_eq_false_iff_not] at *
  omega

theorem revLess_negtrans (a b c : TaskRevTag) (h1 : revLess a b = false)
    (h2 : revLess b c = false) : revLess a c = false := by
  simp only [revLess, decide_eq_true_eq, decide_eq_false_iff_not] at *
  omega

theorem strLess_asymm (a b : Str) (h : strLess a b = true) : strLess b a = false := by
  induction a generalizing b with
  | nil => cases b <;> simp [strLess] at *
  | cons x xs ih =>
    cases b with
    | nil => simp [strLess] at h
    | cons y ys =>
      simp only [strLess] at h ⊢
      by_cases h1 : x.toNat < y.toNat
      · have h2 : ¬ y.toNat < x.toNat := by omega
        simp [h1, h2]
      · by_cases h2 : y.toNat < x.toNat
        · simp [h1, h2] at h
        · simp only [h1, h2, if_false] at h ⊢
          exact ih ys h

theorem strLess_negtrans (a b c : Str) (h1 : strLess a b = false) (h2 : strLess b c = false) :
    strLess a c = false := by
  induction a generalizing b c with
  | nil =>
    cases c with
    | nil => simp [strLess]
    | cons z zs =>
      cases b with
      | nil => simp [strLess] at h2
      | cons y ys => simp [strLess] at h1
  | cons x xs ih =>
    cases c with
    | nil => simp [strLess]
    | cons z zs =>
      cases b with
      | nil => simp [strLess] at h2
      | cons y ys =>
        simp only [strLess] at h1 h2 ⊢
        by_cases hxy : x.toNat < y.toNat
        · simp [hxy] at h1
        · by_cases hyz : y.toNat < z.toNat
          · simp [hyz] at h2
          · by_cases hyx : y.toNat < x.toNat
            · have hxz : ¬ x.toNat < z.toNat := by omega
              have hzx : z.toNat < x.toNat := by omega
              simp [hxz, hzx]
            · by_cases hzy : z.toNat < y.toNat
              · have hxz : ¬ x.toNat < z.toNat := by omega
                have hzx : z.toNat < x.toNat := by omega
                simp [hxz, hzx]
              · have hxz : ¬ x.toNat < z.toNat := by omega
                have hzx : ¬ z.toNat < x.toNat := by omega
                simp only [hxy, hyx, hyz, hzy, hxz, hzx, if_false] at h1 h2 ⊢
                exact ih ys zs h1 h2

/-! ## Reading decimal numbers -/

theorem parseDigits_decimal (s : Str) (acc : Nat) (h : ∀ c ∈ s, 48 ≤ c.toNat ∧ c.toNat ≤ 57) :
    parseDigits acc s = some (s.foldl (fun acc c => acc * 10 + (c.toNat - 48)) acc) := by
  induction s generalizing acc with
  | nil => rfl
  | cons c cs ih =>
    have hc := h c (by simp)
    have hcs : ∀ d ∈ cs, 48 ≤ d.toNat ∧ d.toNat ≤ 57 := fun d m => h d (List.mem_cons_of_mem _ m)
    simp [parseDigits, digitVal, hc, ih _ hcs]

/-- On a decimal string whose value fits an `int`, `Atoi` returns that value. -/
theorem Atoi_decimal (s : Str) (h : IsDecimal s) (hsmall : decimalValue s < 2 ^ 63) :
    (Atoi s).1 = (decimalValue s : Int) := by
  obtain ⟨hne, hd⟩ := h
  have hp : parseDigits 0 s = some (decimalValue s) := parseDigits_decimal s 0 hd
  cases s with
  | nil => exact absurd rfl hne
  | cons c cs =>
    have hc := hd c (by simp)
    have hm : c ≠ '-' := by
      intro e; subst e; revert hc; decide
    have hpl : c ≠ '+' := by
      intro e; subst e; revert hc; decide
    generalize decimalValue (c :: cs) = v at hsmall hp ⊢
    have hn : ¬ (9223372036854775808 ≤ v) := by
      have e : (2 : Nat) ^ 63 = 9223372036854775808 := by norm_num
      omega
    have hlt : ¬ ((2 : Int) ^ 63 ≤ (v : Int)) := by
      have e : (2 : Int) ^ 63 = 9223372036854775808 := by norm_num
      omega
    unfold Atoi
    split
    · rename_i ds heq
      exact absurd (List.cons.inj heq).1 hm
    · rename_i ds heq
      exact absurd (List.cons.inj heq).1 hpl
    · simp only [hp]
      simp [hn, hlt]

/-! ## The loops of `FilterInstances` -/

theorem tagLoop_eq (pfx : Str) (i : Instance) (tags : List Tag) :
    tagLoop pfx i tags =
      (tags.filter fun j => j.Key = "Name".toList ∧ pfx.isPrefixOf j.Value = true).map
        fun j => { name := j.Value, id := i.InstanceId } := by
  induction tags with
  | nil => rfl
  | cons j rest ih =>
    by_cases hk : j.Key = "Name".toList
    · by_cases hp : pfx.isPrefixOf j.Value = true
      · have hp2 := hp
        simp only [String.toList] at hk
        simp only [List.isPrefixOf_iff_prefix] at hp2
        simp [tagLoop, HasPrefix, List.filter_cons, hk, hp, hp2, ih]
      · have hp2 := hp
        simp only [String.toList] at hk
        simp only [List.isPrefixOf_iff_prefix] at hp2
        simp [tagLoop, HasPrefix, List.filter_cons, hk, hp, hp2, ih]
    · simp only [String.toList] at hk
      simp [tagLoop, List.filter_cons, hk, ih]

theorem reservationLoop_eq (pfx : Str) (inventory : List Reservation) :
    reservationLoop pfx inventory = matchingInstances pfx inventory := by
  have hi : ∀ is : List Instance, instanceLoop pfx is =
      is.flatMap fun i =>
        (i.Tags.filter fun j => j.Key = "Name".toList ∧ pfx.isPrefixOf j.Value = true).map
          fun j => { name := j.Value, id := i.InstanceId } := by
    intro is
    induction is with
    | nil => rfl
    | cons i rest ih => simp [instanceLoop, tagLoop_eq, ih]
  induction inventory with
  | nil => rfl
  | cons r rest ih =>
    simp only [reservationLoop, ih, hi]
    simp [matchingInstances]

/-! ## Computations without a mutating call -/

theorem Quiet.ret {α : Type} (a : α) : Quiet (Run.ret a) := by
  intro c hc
  simp [Run.ret] at hc

theorem Quiet.crash {α : Type} : Quiet (Run.crash : Run α) := by
  intro c hc
  simp [Run.crash] at hc

theorem Quiet.index {α : Type} (xs : List α) (i : Nat) : Quiet (Run.index xs i) := by
  unfold Run.index
  cases xs.get? i
  · exact Quiet.crash
  · exact Quiet.ret _

theorem Quiet.call {α : Type} (c : Call) (r : α) (h : c.isMutating = false) :
    Quiet (Run.call c r) := by
  intro d hd
  simp only [Run.call, List.mem_singleton] at hd
  rw [hd]
  exact h

theorem Quiet.andThen {α β : Type} (x : Run α) (f : α → Run β) (hx : Quiet x)
    (hf : ∀ a, Quiet (f a)) : Quiet (x.andThen f) := by
  intro c hc
  unfold Run.andThen at hc
  cases hr : x.res with
  | panic =>
    rw [hr] at hc
    exact hx c hc
  | val a =>
    rw [hr] at hc
    rcases List.mem_append.mp hc with h | h
    · exact hx c h
    · exact hf a c h

theorem namesOfArns_quiet (arns : List Str) : Quiet (namesOfArns arns) := by
  induction arns with
  | nil => exact Quiet.ret _
  | cons a rest ih =>
    unfold namesOfArns
    exact Quiet.andThen _ _ (Quiet.index _ _) fun _ =>
      Quiet.andThen _ _ ih fun _ => Quiet.ret _

theorem ListEcsService_quiet (W : World) (cluster : Str) : Quiet (ListEcsService W cluster) := by
  unfold ListEcsService
  refine Quiet.andThen _ _ (Quiet.call _ _ rfl) fun result => ?_
  cases result with
  | error err => exact Quiet.ret _
  | ok arns => exact Quiet.andThen _ _ (namesOfArns_quiet arns) fun _ => Quiet.ret _

theorem describeLoop_quiet (W : World) (ts : List Str) : Quiet (describeLoop W ts) := by
  induction ts with
  | nil => exact Quiet.ret _
  | cons t rest ih =>
    unfold describeLoop
    refine Quiet.andThen _ _ (Quiet.call _ _ rfl) fun result => ?_
    cases result with
    | error err => exact Quiet.ret _
    | ok td =>
      refine Quiet.andThen _ _ (Quiet.index _ _) fun _ => ?_
      refine Quiet.andThen _ _ (Quiet.index _ _) fun _ => ?_
      refine Quiet.andThen _ _ (Quiet.index _ _) fun _ => ?_
      refine Quiet.andThen _ _ ih fun more => ?_
      cases more with
      | error err => exact Quiet.ret _
      | ok l => exact Quiet.ret _

theorem ListTaskRevsAndImageTags_quiet (W : World) (family : Str) :
    Quiet (ListTaskRevsAndImageTags W family) := by
  unfold ListTaskRevsAndImageTags
  refine Quiet.andThen _ _ (Quiet.call _ _ rfl) fun result => ?_
  cases result with
  | error err => exact Quiet.ret _
  | ok arns =>
    refine Quiet.andThen _ _ (namesOfArns_quiet arns) fun _ => ?_
    refine Quiet.andThen _ _ (describeLoop_quiet W _) fun described => ?_
    cases described with
    | error err => exact Quiet.ret _
    | ok l => exact Quiet.ret _

/-- A log without a mutating call passes nothing through the filter. -/
theorem filter_isMutating_of_quiet (l : List Call) (h : ∀ c ∈ l, c.isMutating = false) :
    l.filter Call.isMutating = [] := by
  rw [List.filter_eq_nil_iff]
  intro c hc
  simp [h c hc]

/-! ## The steps of the deployment flow -/

/-- The clusters step: one listing of the services, and a rendered menu whose
callback identifier is the chosen cluster. -/
theorem flow_clusters (W : World) (env : envConfig) (u : User) (m : Message)
    (att : Attachment) (atts : List Attachment) (c : Str) (l : List Str) (lg : List Call)
    (henv : W.processEnv = .ok env) (hm : m.Attachments = att :: atts) (hc : c ≠ [])
    (hsvc : ListEcsService W c = ⟨.val (.ok l), lg⟩) :
    ∃ att1, Handler W (interactionRequest (interactionOf u m (.select "clusters".toList c))) =
        ⟨.val (getResponseMsg 200 (.json
          { m with Attachments := att1 :: atts, ReplaceOriginal := true }), none), lg⟩ ∧
      att1.CallbackID = c := by
  refine ⟨{ att with
            Text := "Choose ECS Service in ".toList ++ c
            CallbackID := c
            Actions := [{ Name := "services".toList, Type_ := "select".toList,
                          Options := l.map fun s => { Text := s, Value := s } },
                        cancelButton]
            Fields := [] }, ?_, rfl⟩
  simp [Handler, henv, interactionRequest, interactionOf, Trigger.action, HasPrefix, hsvc,
    getResponseInteractiveMsg, hm, hc, jsonMarshal, Run.ret]

/-- The services step: the revisions of the derived family are fetched, and
the rendered menu keeps the callback identifier. -/
theorem flow_services (W : World) (env : envConfig) (u : User) (m : Message)
    (att : Attachment) (atts : List Attachment) (s : Str) (revs : List TaskRevTag)
    (lg : List Call)
    (henv : W.processEnv = .ok env) (hm : m.Attachments = att :: atts)
    (hsuf : HasSuffix att.CallbackID "-cluster".toList = true)
    (hrev : ListTaskRevsAndImageTags W (familyOf att.CallbackID s) = ⟨.val (.ok revs), lg⟩) :
    ∃ att1, Handler W (interactionRequest (interactionOf u m (.select "services".toList s))) =
        ⟨.val (getResponseMsg 200 (.json
          { m with Attachments := att1 :: atts, ReplaceOriginal := true }), none), lg⟩ ∧
      att1.CallbackID = att.CallbackID := by
  refine ⟨{ att with
            Text := "Choose image tag (commit hash)".toList
            Actions := [{ Name := "imgTags".toList, Type_ := "select".toList,
                          Options := revs.map fun t =>
                            { Text := familyOf att.CallbackID s ++ ":".toList ++ t.revNum ++
                                " | ".toList ++ t.imageTag,
                              Value := familyOf att.CallbackID s ++ ":".toList ++ t.revNum ++
                                "/".toList ++ s } },
                        cancelButton]
            Fields := [] }, ?_, rfl⟩
  have hidx := Split_head att.CallbackID "-cluster".toList (by decide)
  simp only [familyOf] at hrev ⊢
  simp only [String.toList] at hsuf hidx hrev
  simp at hrev
  simp [Handler, henv, interactionRequest, interactionOf, Trigger.action, HasPrefix, callbackOf,
    hm, hsuf, Run.index, hidx, hrev, getResponseInteractiveMsg, jsonMarshal, Run.ret]

/-- The imgTags step: no call, and the rendered confirmation keeps the callback
identifier. -/
theorem flow_imgTags (W : World) (env : envConfig) (u : User) (m : Message)
    (att : Attachment) (atts : List Attachment) (v : Str)
    (henv : W.processEnv = .ok env) (hm : m.Attachments = att :: atts) :
    ∃ att1, Handler W (interactionRequest (interactionOf u m (.select "imgTags".toList v))) =
        ⟨.val (getResponseMsg 200 (.json
          { m with Attachments := att1 :: atts, ReplaceOriginal := true }), none), []⟩ ∧
      att1.CallbackID = att.CallbackID := by
  refine ⟨{ att with
            Text := "Deploy ".toList ++ (Split v "/".toList).headD [] ++ "?".toList
            Actions := [{ Name := "taskStart".toList, Text := "Start".toList, Value := v,
                          Type_ := "button".toList, Style := "primary".toList },
                        cancelButton]
            Fields := [] }, ?_, rfl⟩
  have hidx := Split_head v "/".toList (by decide)
  simp only [String.toList] at hidx
  simp [Handler, henv, interactionRequest, interactionOf, Trigger.action, HasPrefix, callbackOf,
    hm, Run.index, hidx, getResponseInteractiveMsg, jsonMarshal, Run.ret]

/-- The taskStart step: exactly one call, the update of service `s` of the
cluster named by the callback identifier to revision `r`; then either the
failure is answered without a message, or the rendered message keeps the
callback identifier. -/
theorem flow_taskStart (W : World) (env : envConfig) (u : User) (m : Message)
    (att : Attachment) (atts : List Attachment) (r s : Str)
    (henv : W.processEnv = .ok env) (hm : m.Attachments = att :: atts)
    (hr : '/' ∉ r) (hs : '/' ∉ s) :
    (∃ err, Handler W (interactionRequest (interactionOf u m
        (.button "taskStart".toList (r ++ "/".toList ++ s)))) =
        ⟨.val (getResponseMsg 500 Text.empty, some err),
          [Call.UpdateService att.CallbackID s r]⟩) ∨
    (∃ att1, Handler W (interactionRequest (interactionOf u m
        (.button "taskStart".toList (r ++ "/".toList ++ s)))) =
        ⟨.val (getResponseMsg 200 (.json
          { m with Attachments := att1 :: atts, ReplaceOriginal := true }), none),
          [Call.UpdateService att.CallbackID s r]⟩ ∧
      att1.CallbackID = att.CallbackID) := by
  have hsplit : Split (r ++ '/' :: s) ['/'] = [r, s] := Split_single_two '/' r s hr hs
  cases hu : W.UpdateService att.CallbackID s r with
  | some err =>
    left
    refine ⟨err, ?_⟩
    simp [Handler, henv, interactionRequest, interactionOf, Trigger.action, HasPrefix,
      callbackOf, hm, Run.index, hsplit, UpdateEcsService, hu, Run.ret, Run.call]
  | none =>
    right
    refine ⟨{ att with
              Color := "#0174DF".toList
              Actions := []
              Fields := [{ Title := "@".toList ++ u.Name ++ " started deploy.".toList,
                           Value := [], Short := false }] }, ?_, rfl⟩
    simp [Handler, henv, interactionRequest, interactionOf, Trigger.action, HasPrefix,
      callbackOf, hm, Run.index, hsplit, UpdateEcsService, hu, Run.ret, Run.call,
      getResponseInteractiveMsg, jsonMarshal]

/-! ## Theorems -/

/-- C3: an interaction whose first action is `services` and whose callback
identifier does not end with `-cluster` is answered with status 500 and an
empty body, whatever option is selected (or none), and no external call is
made, so in particular no control-plane call. -/
theorem services_without_marker_answers_500 (W : World) (request : APIGatewayProxyRequest)
    (i : InteractionCallback) (a0 : AttachmentAction) (rest : List AttachmentAction)
    (hreq : IsInteraction request i)
    (hact : i.Actions = a0 :: rest) (hname : a0.Name = "services".toList)
    (hsuf : HasSuffix i.CallbackID "-cluster".toList = false) :
    ∃ resp err, Handler W request = ⟨.val (resp, err), []⟩ ∧
      resp.StatusCode = 500 ∧ resp.Body = Text.plain [] := by
  obtain ⟨hp, hl, hd⟩ := hreq
  cases henv : W.processEnv with
  | error e =>
    exact ⟨getResponseMsg 500 Text.empty, some e, by simp [Handler, henv, Run.ret], rfl, rfl⟩
  | ok env =>
    refine ⟨getResponseMsg 500 Text.empty, none, ?_, rfl, rfl⟩
    simp only [String.toList] at hp hsuf hname
    simp [Handler, henv, hp, hd, hact, hname, hsuf, Run.ret, Nat.not_lt.mpr hl]

/-- C3 at a concrete input: the `services` menu clicked on a message whose
callback identifier is still `ecsdeploy`. -/
theorem services_without_marker_answers_500_witness :
    ∃ resp err,
      Handler demoWorld (interactionRequest (interactionOf alice menuMessage
        (.select "services".toList "web".toList))) = ⟨.val (resp, err), []⟩ ∧
      resp.StatusCode = 500 ∧ resp.Body = Text.plain [] :=
  services_without_marker_answers_500 demoWorld _
    (interactionOf alice menuMessage (.select "services".toList "web".toList)) _ []
    (isInteraction_interactionRequest _) rfl rfl (by decide)

/-- C4: an interaction whose first action is `cancel`, triggered by a user
named `u` on a message with at least one attachment, is answered with a
response of status code 200 whose body is the original message in which the
first attachment has the grey colour, zero actions and exactly one field,
titled `@u canceled.`; the callback identifier and the values of the action
play no part, no Go error is returned, and no external call is made. -/
theorem cancel_renders_cancellation (W : World) (env : envConfig)
    (request : APIGatewayProxyRequest) (i : InteractionCallback) (a0 : AttachmentAction)
    (att : Attachment) (atts : List Attachment)
    (henv : W.processEnv = .ok env) (hreq : IsInteraction request i)
    (hact : i.Actions.head? = some a0) (hname : a0.Name = "cancel".toList)
    (hatt : i.OriginalMessage.Attachments = att :: atts) :
    ∃ resp, Handler W request = ⟨.val (resp, none), []⟩ ∧
      resp.StatusCode = 200 ∧
      resp.Body = .json
        { i.OriginalMessage with
          Attachments :=
            { att with
              Color := "#808080".toList
              Actions := []
              Fields := [{ Title := "@".toList ++ i.User.Name ++ " canceled.".toList,
                           Value := [], Short := false }] } :: atts
          ReplaceOriginal := true } := by
  obtain ⟨hp, hl, hd⟩ := hreq
  obtain ⟨rest, hact⟩ := cons_of_head? hact
  simp only [String.toList] at hp hname
  refine ⟨getResponseMsg 200 (.json
      { i.OriginalMessage with
        Attachments :=
          { att with
            Color := "#808080".toList
            Actions := []
            Fields := [{ Title := "@".toList ++ i.User.Name ++ " canceled.".toList,
                         Value := [], Short := false }] } :: atts
        ReplaceOriginal := true }), ?_, rfl, rfl⟩
  simp [Handler, henv, hp, hd, hact, hname, Run.ret, Nat.not_lt.mpr hl,
    getResponseInteractiveMsg, hatt, jsonMarshal]

/-- C4 at a concrete input: `alice` cancels on the cluster menu. -/
theorem cancel_renders_cancellation_witness :
    ∃ resp, Handler demoWorld (interactionRequest (interactionOf alice menuMessage
        (.button "cancel".toList []))) = ⟨.val (resp, none), []⟩ ∧
      resp.StatusCode = 200 ∧
      resp.Body = .json
        { menuMessage with
          Attachments :=
            [{ Text := "Choose ECS Cluster".toList, Color := "#808080".toList,
               CallbackID := "ecsdeploy".toList, Actions := [],
               Fields := [{ Title := "@alice canceled.".toList }] }]
          ReplaceOriginal := true } :=
  cancel_renders_cancellation demoWorld _ _
    (interactionOf alice menuMessage (.button "cancel".toList [])) _ _ []
    rfl (isInteraction_interactionRequest _) rfl rfl rfl

/-- C5: for a task family `f`, a revision number `n` and a service `s`, none
containing `/`, take the option value `f:n/s` the services step builds.  The
imgTags step, on a message with an attachment, answers with status code 200
and a message whose first control is the `Start` button carrying exactly that
value; and the taskStart step on that value calls `UpdateService` with the
service `s` and the revision identifier `f:n` (and the callback identifier as
cluster), and makes no other call. -/
theorem revision_token_round_trip (W : World) (env : envConfig) (f n s : Str)
    (request1 request2 : APIGatewayProxyRequest) (i1 i2 : InteractionCallback)
    (a1 a2 : AttachmentAction) (o : AttachmentActionOption)
    (att : Attachment) (atts : List Attachment)
    (hf : '/' ∉ f) (hn : '/' ∉ n) (hs : '/' ∉ s)
    (henv : W.processEnv = .ok env)
    (hreq1 : IsInteraction request1 i1) (hact1 : i1.Actions.head? = some a1)
    (hname1 : a1.Name = "imgTags".toList) (hsel : a1.SelectedOptions.head? = some o)
    (hval1 : o.Value = f ++ ":".toList ++ n ++ "/".toList ++ s)
    (hatt : i1.OriginalMessage.Attachments = att :: atts)
    (hreq2 : IsInteraction request2 i2) (hact2 : i2.Actions.head? = some a2)
    (hname2 : a2.Name = "taskStart".toList)
    (hval2 : a2.Value = f ++ ":".toList ++ n ++ "/".toList ++ s) :
    (∃ resp, Handler W request1 = ⟨.val (resp, none), []⟩ ∧
      resp.StatusCode = 200 ∧
      resp.Body = .json
        { i1.OriginalMessage with
          Attachments :=
            { att with
              Text := "Deploy ".toList ++ (f ++ ":".toList ++ n) ++ "?".toList
              Actions := [{ Name := "taskStart".toList, Text := "Start".toList,
                            Value := f ++ ":".toList ++ n ++ "/".toList ++ s,
                            Type_ := "button".toList, Style := "primary".toList },
                          cancelButton]
              Fields := [] } :: atts
          ReplaceOriginal := true }) ∧
    (Handler W request2).log = [Call.UpdateService i2.CallbackID s (f ++ ":".toList ++ n)] := by
  obtain ⟨hp1, hl1, hd1⟩ := hreq1
  obtain ⟨hp2, hl2, hd2⟩ := hreq2
  obtain ⟨rest1, hact1⟩ := cons_of_head? hact1
  obtain ⟨rest2, hact2⟩ := cons_of_head? hact2
  obtain ⟨opts, hsel⟩ := cons_of_head? hsel
  have hu : '/' ∉ f ++ ':' :: n := by
    simp only [List.mem_append, List.mem_cons, not_or]
    exact ⟨hf, by decide, hn⟩
  have hsplit : Split (f ++ ':' :: (n ++ '/' :: s)) ['/'] = [f ++ ':' :: n, s] := by
    have e : f ++ ':' :: (n ++ '/' :: s) = (f ++ ':' :: n) ++ '/' :: s := by simp
    rw [e]
    exact Split_single_two '/' _ s hu hs
  simp only [String.toList] at hp1 hp2 hname1 hname2
  simp at hval1 hval2
  constructor
  · refine ⟨getResponseMsg 200 (.json
        { i1.OriginalMessage with
          Attachments :=
            { att with
              Text := "Deploy ".toList ++ (f ++ ":".toList ++ n) ++ "?".toList
              Actions := [{ Name := "taskStart".toList, Text := "Start".toList,
                            Value := f ++ ":".toList ++ n ++ "/".toList ++ s,
                            Type_ := "button".toList, Style := "primary".toList },
                          cancelButton]
              Fields := [] } :: atts
          ReplaceOriginal := true }), ?_, rfl, rfl⟩
    simp [Handler, henv, hp1, hd1, hact1, hname1, hsel, hval1, hsplit, Run.ret, Run.index,
      Nat.not_lt.mpr hl1, getResponseInteractiveMsg, hatt, jsonMarshal]
  · cases hu2 : W.UpdateService i2.CallbackID s (f ++ ':' :: n) with
    | some e =>
      simp [Handler, henv, hp2, hd2, hact2, hname2, hval2, hsplit, Run.ret, Run.index,
        Nat.not_lt.mpr hl2, UpdateEcsService, hu2]
    | none =>
      cases hm : i2.OriginalMessage.Attachments with
      | nil =>
        simp [Handler, henv, hp2, hd2, hact2, hname2, hval2, hsplit, Run.ret, Run.index,
          Nat.not_lt.mpr hl2, UpdateEcsService, hu2, getResponseInteractiveMsg, hm]
      | cons x xs =>
        simp [Handler, henv, hp2, hd2, hact2, hname2, hval2, hsplit, Run.ret, Run.index,
          Nat.not_lt.mpr hl2, UpdateEcsService, hu2, getResponseInteractiveMsg, hm, jsonMarshal]

/-- C5 at a concrete input: family `prod-web`, revision `10`, service `web`;
the revision is chosen, then the start button is pushed, on a message whose
callback identifier is `ecsdeploy`. -/
theorem revision_token_round_trip_witness :
    (∃ resp, Handler demoWorld (interactionRequest (interactionOf alice menuMessage
        (.select "imgTags".toList "prod-web:10/web".toList))) = ⟨.val (resp, none), []⟩ ∧
      resp.StatusCode = 200 ∧
      resp.Body = .json
        { menuMessage with
          Attachments :=
            [{ Text := "Deploy prod-web:10?".toList, Color := "#ff8c00".toList,
               CallbackID := "ecsdeploy".toList,
               Actions := [{ Name := "taskStart".toList, Text := "Start".toList,
                             Value := "prod-web:10/web".toList,
                             Type_ := "button".toList, Style := "primary".toList },
                           cancelButton],
               Fields := [] }]
          ReplaceOriginal := true }) ∧
    (Handler demoWorld (interactionRequest (interactionOf alice menuMessage
        (.button "taskStart".toList "prod-web:10/web".toList)))).log =
      [Call.UpdateService "ecsdeploy".toList "web".toList "prod-web:10".toList] :=
  revision_token_round_trip demoWorld _ "prod-web".toList "10".toList "web".toList
    (interactionRequest (interactionOf alice menuMessage
      (.select "imgTags".toList "prod-web:10/web".toList)))
    (interactionRequest (interactionOf alice menuMessage
      (.button "taskStart".toList "prod-web:10/web".toList)))
    _ _ _ _ { Value := "prod-web:10/web".toList } _ []
    (by decide) (by decide) (by decide) rfl
    (isInteraction_interactionRequest _) rfl rfl rfl rfl rfl
    (isInteraction_interactionRequest _) rfl rfl rfl

/-- C6 at the failing input: the control plane lists the one service of the
cluster `prod-cluster` as `arn:aws:ecs:ap-northeast-1:1:service/prod-cluster/web`,
the long identifier format, which names the cluster before the service.
`ListEcsService` returns `prod-cluster`, the name of the cluster, where the bare
service name, the identifier with everything up to and including its last `/`
removed, is `web`. -/
theorem long_service_arn_gives_cluster_name :
    ListEcsService longArnWorld "prod-cluster".toList =
      ⟨.val (.ok ["prod-cluster".toList]), [Call.ListServices "prod-cluster".toList]⟩ ∧
    afterLast '/' "arn:aws:ecs:ap-northeast-1:1:service/prod-cluster/web".toList =
      "web".toList :=
  ⟨rfl, rfl⟩

/-- C7 at the failing input: every task definition is described with the first
container image `registry.example.com:5000/web:c0ffee`, a reference that gives
the port of its registry.  `ListTaskRevsAndImageTags` records the imageTag
`5000/web`, where the tag, the substring after the last `:` of the reference,
is `c0ffee`. -/
theorem registry_port_taken_for_tag :
    (ListTaskRevsAndImageTags registryWorld "prod-web".toList).res =
      .val (.ok [{ revNum := "10".toList, imageTag := "5000/web".toList },
                  { revNum := "9".toList, imageTag := "5000/web".toList }]) ∧
    afterLast ':' "registry.example.com:5000/web:c0ffee".toList = "c0ffee".toList :=
  ⟨rfl, rfl⟩

/-- C2, as the code has it: when the listing of a family is well formed, the
revision numbers of the fetched records are decimal strings whose numeric
values are pairwise distinct and below 2^63, and `sort.Slice` keeps its
contract, `ListTaskRevsAndImageTags` returns a rearrangement of the fetched
records that is strictly descending by the numeric value of revNum. -/
theorem revisions_sorted_descending (W : World) (hW : W.SortsSlices) (family : Str)
    (arns : List Str) (h : Fetched W family arns)
    (hdec : ∀ r ∈ fetchedRecords W arns,
      IsDecimal r.revNum ∧ decimalValue r.revNum < 2 ^ 63)
    (hdist : (fetchedRecords W arns).Pairwise
      (fun a b => decimalValue a.revNum ≠ decimalValue b.revNum)) :
    ∃ out, (ListTaskRevsAndImageTags W family).res = .val (.ok out) ∧
      out.Perm (fetchedRecords W arns) ∧
      out.Pairwise (fun a b => decimalValue a.revNum > decimalValue b.revNum) := by
  refine ⟨W.sortSlice revLess (fetchedRecords W arns), ?_, hW.perm _ _, ?_⟩
  · rw [ListTaskRevsAndImageTags_ok W family arns h]
    rfl
  · have hperm := hW.perm revLess (fetchedRecords W arns)
    have hsorted := hW.sorted revLess (fetchedRecords W arns) revLess_asymm revLess_negtrans
    have hne : (W.sortSlice revLess (fetchedRecords W arns)).Pairwise
        (fun a b => decimalValue a.revNum ≠ decimalValue b.revNum) :=
      (hperm.pairwise_iff (fun {x y} (hxy : decimalValue x.revNum ≠ decimalValue y.revNum) =>
        Ne.symm hxy)).mpr hdist
    refine List.Pairwise.imp_of_mem ?_ (hsorted.and hne)
    intro a b ha hb hab
    obtain ⟨hle, hn⟩ := hab
    obtain ⟨hda, hsa⟩ := hdec a (hperm.mem_iff.mp ha)
    obtain ⟨hdb, hsb⟩ := hdec b (hperm.mem_iff.mp hb)
    have ea := Atoi_decimal a.revNum hda hsa
    have eb := Atoi_decimal b.revNum hdb hsb
    simp only [revLess, decide_eq_false_iff_not, ea, eb] at hle
    have hle2 : decimalValue b.revNum ≤ decimalValue a.revNum := by
      have : ¬ ((decimalValue b.revNum : Int) > (decimalValue a.revNum : Int)) := hle
      omega
    omega

/-- C2 at a concrete input: revisions 9 and 10 of the demo world come back as
10, 9. -/
theorem revisions_sorted_descending_witness :
    ∃ out, (ListTaskRevsAndImageTags demoWorld "prod-web".toList).res = .val (.ok out) ∧
      out.Perm [{ revNum := "9".toList, imageTag := "c0ffee".toList },
                { revNum := "10".toList, imageTag := "c0ffee".toList }] ∧
      out.Pairwise (fun a b => decimalValue a.revNum > decimalValue b.revNum) :=
  revisions_sorted_descending demoWorld demoWorld_sortsSlices "prod-web".toList _
    demoWorld_fetched
    (by
      intro r m
      have hm : r ∈ [({ revNum := "9".toList, imageTag := "c0ffee".toList } : TaskRevTag),
          { revNum := "10".toList, imageTag := "c0ffee".toList }] := m
      simp only [List.mem_cons, List.mem_singleton, List.not_mem_nil, or_false] at hm
      rcases hm with rfl | rfl
      · exact ⟨⟨by decide, by decide⟩, by decide⟩
      · exact ⟨⟨by decide, by decide⟩, by decide⟩)
    (by
      show List.Pairwise _ [({ revNum := "9".toList, imageTag := "c0ffee".toList } : TaskRevTag),
          { revNum := "10".toList, imageTag := "c0ffee".toList }]
      decide)

/-- C2 fails as stated.  Revisions `9223372036854775808` and
`9223372036854775809` are distinct decimal strings; `Atoi` gives the largest
`int` for both, the slice stays as fetched, and the lower number comes first.
Revisions `7` and `07` are distinct decimal strings of equal numeric value, so
no order of them is strictly descending. -/
theorem large_or_padded_revisions_not_descending :
    ((ListTaskRevsAndImageTags overflowWorld "prod-web".toList).res =
        .val (.ok [{ revNum := "9223372036854775808".toList, imageTag := "c0ffee".toList },
                    { revNum := "9223372036854775809".toList, imageTag := "c0ffee".toList }]) ∧
      decimalValue "9223372036854775808".toList < decimalValue "9223372036854775809".toList) ∧
    ((ListTaskRevsAndImageTags paddedWorld "prod-web".toList).res =
        .val (.ok [{ revNum := "7".toList, imageTag := "c0ffee".toList },
                    { revNum := "07".toList, imageTag := "c0ffee".toList }]) ∧
      decimalValue "7".toList = decimalValue "07".toList) :=
  ⟨⟨rfl, by decide⟩, ⟨rfl, by decide⟩⟩

/-- C9: when `DescribeInstances` returns an inventory and `sort.Slice` keeps
its contract, `FilterInstances` returns without error, after that one call, a
list that is a rearrangement of the (Name-tag value, instance id) pairs of the
instances whose Name tag value starts with the prefix and that is in
non-decreasing lexical order of name; it is empty when no name matches.  A
mention with that one argument (not `help`) then posts an attachment whose
fields are those pairs, so zero fields when no name matches, and answers with
status code 200, an empty body and no Go error. -/
theorem filter_instances_sorted_matches (W : World) (hW : W.SortsSlices)
    (pfx : Str) (inventory : List Reservation)
    (hinv : W.DescribeInstances = .ok inventory) :
    ∃ out, FilterInstances W pfx = ⟨.val (.ok out), [Call.DescribeInstances]⟩ ∧
      out.Perm (matchingInstances pfx inventory) ∧
      out.Pairwise (fun a b => strLess b.name a.name = false) ∧
      (matchingInstances pfx inventory = [] → out = []) ∧
      ∀ (env : envConfig) (request : APIGatewayProxyRequest) (e : EventsAPIEvent)
        (ev : AppMentionEvent),
        W.processEnv = .ok env →
        HasPrefix request.Body "payload".toList = false →
        request.parseEvent (tokenOf W env.VerificationToken) = .ok e →
        e.Type_ = CallbackEvent → e.InnerEvent = .appMention ev →
        (Split (TrimSpace ev.Text) " ".toList).tail = [pfx] →
        pfx ≠ "help".toList →
        ∃ resp, Handler W request =
          ⟨.val (resp, none),
            [Call.Decrypt env.VerificationToken, Call.Decrypt env.BotUserToken,
             Call.DescribeInstances,
             Call.PostMessage (tokenOf W env.BotUserToken) ev.Channel
               (.attachments
                 { Pretext := "*Instance ID List in ".toList ++ env.Region ++ "*".toList,
                   Color := "#0174DF".toList,
                   Fields := out.map fun i =>
                     { Title := i.name, Value := i.id, Short := false } })]⟩ ∧
          resp.StatusCode = 200 ∧ resp.Body = Text.plain [] := by
  have hF : FilterInstances W pfx =
      ⟨.val (.ok (W.sortSlice nameLess (matchingInstances pfx inventory))),
        [Call.DescribeInstances]⟩ := by
    simp [FilterInstances, hinv, reservationLoop_eq, Run.ret]
  have hperm := hW.perm nameLess (matchingInstances pfx inventory)
  refine ⟨W.sortSlice nameLess (matchingInstances pfx inventory), hF, hperm, ?_, ?_, ?_⟩
  · exact hW.sorted nameLess _ (fun a b => strLess_asymm a.name b.name)
      (fun a b c => strLess_negtrans a.name b.name c.name)
  · intro hnil
    rw [hnil] at hperm ⊢
    exact List.Perm.eq_nil hperm
  · intro env request e ev henv hbody hev htype hinner hargs hhelp
    obtain ⟨x, hsplit⟩ : ∃ x, Split (TrimSpace ev.Text) " ".toList = x :: [pfx] := by
      cases hs : Split (TrimSpace ev.Text) " ".toList with
      | nil => rw [hs] at hargs; simp at hargs
      | cons x m => rw [hs] at hargs; simp at hargs; exact ⟨x, by rw [hargs]⟩
    simp only [String.toList] at hbody hsplit hhelp
    have hv : (match W.Decrypt env.VerificationToken with
        | .ok t => t
        | .error _ => []) = tokenOf W env.VerificationToken := rfl
    have hb : (match W.Decrypt env.BotUserToken with
        | .ok t => t
        | .error _ => []) = tokenOf W env.BotUserToken := rfl
    have hne : URLVerification ≠ CallbackEvent := by decide
    refine ⟨getResponseMsg 200 Text.empty, ?_, rfl, rfl⟩
    simp [Handler, henv, hbody, DecodeString, hv, hev, htype, hne.symm, hinner, hsplit, hhelp,
      hF, Run.ret, Run.call, hb]

/-- C9 at a concrete input: the mention `<@UBOT> web` in the demo world, whose
instances `web-b` and `web-a` come back as `web-a`, `web-b`. -/
theorem filter_instances_sorted_matches_witness :
    ∃ out, FilterInstances demoWorld "web".toList = ⟨.val (.ok out), [Call.DescribeInstances]⟩ ∧
      out.Perm [{ name := "web-b".toList, id := "i-02".toList },
                { name := "web-a".toList, id := "i-01".toList }] ∧
      out.Pairwise (fun a b => strLess b.name a.name = false) ∧
      ∃ resp, Handler demoWorld mentionRequest =
        ⟨.val (resp, none),
          [Call.Decrypt "verification".toList, Call.Decrypt "bot-token".toList,
           Call.DescribeInstances,
           Call.PostMessage "bot-token".toList "C1".toList
             (.attachments
               { Pretext := "*Instance ID List in ap-northeast-1*".toList,
                 Color := "#0174DF".toList,
                 Fields := out.map fun i =>
                   { Title := i.name, Value := i.id, Short := false } })]⟩ ∧
        resp.StatusCode = 200 ∧ resp.Body = Text.plain [] :=
  match filter_instances_sorted_matches demoWorld demoWorld_sortsSlices "web".toList _ rfl with
  | ⟨out, h1, h2, h3, _, h5⟩ =>
    ⟨out, h1, h2, h3,
      h5 _ mentionRequest _ _ rfl (by decide) rfl rfl rfl (by decide) (by decide)⟩

/-- C10, as the code has it: take an interaction whose first action is
`services`, whose callback identifier is `p` followed by `-cluster` where `p`
itself contains no `-cluster`, and whose selected option value is `s`, on a
message with an attachment.  Then the external calls of `Handler` are exactly
those of `ListTaskRevsAndImageTags` for the family `p-s`, the first being the
listing of that family; and when that function returns revisions, `Handler`
answers with status code 200 and the menu whose option values are
`p-s:revNum/s`, one for each revision, in the order returned. -/
theorem services_step_queries_family (W : World) (env : envConfig)
    (request : APIGatewayProxyRequest) (i : InteractionCallback) (a0 : AttachmentAction)
    (o : AttachmentActionOption) (att : Attachment) (atts : List Attachment) (p s : Str)
    (henv : W.processEnv = .ok env) (hreq : IsInteraction request i)
    (hact : i.Actions.head? = some a0) (hname : a0.Name = "services".toList)
    (hcb : i.CallbackID = p ++ "-cluster".toList)
    (hp : Index "-cluster".toList p = none)
    (hsel : a0.SelectedOptions.head? = some o) (hval : o.Value = s)
    (hatt : i.OriginalMessage.Attachments = att :: atts) :
    (Handler W request).log = (ListTaskRevsAndImageTags W (p ++ "-".toList ++ s)).log ∧
    (Handler W request).log.head? = some (Call.ListTaskDefinitions (p ++ "-".toList ++ s)) ∧
    ∀ revs, (ListTaskRevsAndImageTags W (p ++ "-".toList ++ s)).res = .val (.ok revs) →
      ∃ resp, (Handler W request).res = .val (resp, none) ∧
        resp.StatusCode = 200 ∧
        resp.Body = .json
          { i.OriginalMessage with
            Attachments :=
              { att with
                Text := "Choose image tag (commit hash)".toList
                Actions :=
                  [{ Name := "imgTags".toList, Type_ := "select".toList,
                     Options := revs.map fun t =>
                       { Text := p ++ "-".toList ++ s ++ ":".toList ++ t.revNum ++
                           " | ".toList ++ t.imageTag,
                         Value := p ++ "-".toList ++ s ++ ":".toList ++ t.revNum ++
                           "/".toList ++ s } },
                   cancelButton]
                Fields := [] } :: atts
            ReplaceOriginal := true } := by
  obtain ⟨hp1, hl1, hd1⟩ := hreq
  obtain ⟨rest, hact⟩ := cons_of_head? hact
  obtain ⟨opts, hsel⟩ := cons_of_head? hsel
  have hsuf : HasSuffix (p ++ "-cluster".toList) "-cluster".toList = true := by
    simp [HasSuffix, List.isPrefixOf_iff_prefix]
  have hidx : (Split (p ++ "-cluster".toList) "-cluster".toList)[0]? = some p := by
    rw [Split_head _ _ (by decide), Split_marker_head p hp]
  have hfirst : (ListTaskRevsAndImageTags W (p ++ '-' :: s)).log.head? =
      some (Call.ListTaskDefinitions (p ++ '-' :: s)) := by
    simp [ListTaskRevsAndImageTags]
  simp only [String.toList] at hp1 hname hsuf hidx hcb
  cases hR : ListTaskRevsAndImageTags W (p ++ '-' :: s) with
  | mk res log =>
    rw [hR] at hfirst
    simp only at hfirst
    cases res with
    | panic =>
      refine ⟨?_, ?_, ?_⟩ <;>
        simp [Handler, henv, hp1, hd1, hact, hname, hcb, hsuf, hsel, hval, Run.index, hidx,
          Nat.not_lt.mpr hl1, hR, hfirst]
    | val v =>
      cases v with
      | error err =>
        refine ⟨?_, ?_, ?_⟩ <;>
          simp [Handler, henv, hp1, hd1, hact, hname, hcb, hsuf, hsel, hval, Run.index, hidx,
            Nat.not_lt.mpr hl1, hR, hfirst, Run.ret]
      | ok revs0 =>
        have hH : Handler W request =
            ⟨.val (getResponseMsg 200 (.json
              { i.OriginalMessage with
                Attachments :=
                  { att with
                    Text := "Choose image tag (commit hash)".toList
                    Actions :=
                      [{ Name := "imgTags".toList, Type_ := "select".toList,
                         Options := revs0.map fun t =>
                           { Text := p ++ "-".toList ++ s ++ ":".toList ++ t.revNum ++
                               " | ".toList ++ t.imageTag,
                             Value := p ++ "-".toList ++ s ++ ":".toList ++ t.revNum ++
                               "/".toList ++ s } },
                       cancelButton]
                    Fields := [] } :: atts
                ReplaceOriginal := true }), none), log⟩ := by
          simp [Handler, henv, hp1, hd1, hact, hname, hcb, hsuf, hsel, hval, Run.index, hidx,
            Nat.not_lt.mpr hl1, hR, Run.ret, getResponseInteractiveMsg, hatt, jsonMarshal]
        rw [hH]
        refine ⟨by simp [hR], by simpa using hfirst, ?_⟩
        intro revs h
        have e : revs = revs0 := by
          simp [hR] at h
          exact h.symm
        subst e
        exact ⟨_, rfl, rfl, rfl⟩

/-- C10 at a concrete input: the service `web` chosen for the cluster
`prod-cluster` of the demo world, whose revisions come back as 10, 9. -/
theorem services_step_queries_family_witness :
    (Handler demoWorld (interactionRequest
        { Actions := [(Trigger.select "services".toList "web".toList).action],
          CallbackID := "prod-cluster".toList, User := alice,
          OriginalMessage := menuMessage })).log.head? =
      some (Call.ListTaskDefinitions "prod-web".toList) ∧
    ∃ resp, (Handler demoWorld (interactionRequest
        { Actions := [(Trigger.select "services".toList "web".toList).action],
          CallbackID := "prod-cluster".toList, User := alice,
          OriginalMessage := menuMessage })).res = .val (resp, none) ∧
      resp.StatusCode = 200 ∧
      resp.Body = .json
        { menuMessage with
          Attachments :=
            [{ Text := "Choose image tag (commit hash)".toList, Color := "#ff8c00".toList,
               CallbackID := "ecsdeploy".toList,
               Actions :=
                 [{ Name := "imgTags".toList, Type_ := "select".toList,
                    Options :=
                      [{ Text := "prod-web:10 | c0ffee".toList,
                         Value := "prod-web:10/web".toList },
                       { Text := "prod-web:9 | c0ffee".toList,
                         Value := "prod-web:9/web".toList }] },
                  cancelButton],
               Fields := [] }]
          ReplaceOriginal := true } :=
  match services_step_queries_family demoWorld _ _
    { Actions := [(Trigger.select "services".toList "web".toList).action],
      CallbackID := "prod-cluster".toList, User := alice, OriginalMessage := menuMessage }
    _ _ _ [] "prod".toList "web".toList
    rfl (isInteraction_interactionRequest _) rfl rfl rfl (by decide) rfl rfl rfl with
  | ⟨_, h2, h3⟩ =>
    ⟨h2, h3 [{ revNum := "10".toList, imageTag := "c0ffee".toList },
             { revNum := "9".toList, imageTag := "c0ffee".toList }] rfl⟩

/-- C10 fails as stated: the callback identifier `my-cluster-blue-cluster` is
`my-cluster-blue` followed by `-cluster`, the selected service is `web`, and
`Handler` lists the family `my-web`, not `my-cluster-blue-web`. -/
theorem marker_inside_cluster_name_cuts_family :
    (Handler demoWorld (interactionRequest
        { Actions := [(Trigger.select "services".toList "web".toList).action],
          CallbackID := "my-cluster-blue".toList ++ "-cluster".toList, User := alice,
          OriginalMessage := menuMessage })).log =
      [Call.ListTaskDefinitions "my-web".toList,
       Call.DescribeTaskDefinition "my-web:9".toList,
       Call.DescribeTaskDefinition "my-web:10".toList] :=
  rfl

/-- C8, as the code has it: on an interaction payload that decodes as JSON
but has an empty action list, or a `clusters` or `imgTags` action (or a
`services` action under a callback identifier ending with `-cluster`) with no
selected option, or a `taskStart` action whose value contains no `/`, or a
`cancel` or `imgTags` action on an original message with no attachment,
`Handler` returns no response at all: the invocation ends in a runtime panic,
and no external call has been made, so no control-plane call either. -/
theorem malformed_payload_panics (W : World) (env : envConfig)
    (request : APIGatewayProxyRequest) (i : InteractionCallback)
    (henv : W.processEnv = .ok env) (hreq : IsInteraction request i) (h : Malformed i) :
    Handler W request = ⟨.panic, []⟩ := by
  obtain ⟨hp, hl, hd⟩ := hreq
  simp only [String.toList] at hp
  rcases h with h | ⟨a0, ha, h⟩
  · simp [Handler, henv, hp, hd, h, Nat.not_lt.mpr hl, Run.crash]
  · obtain ⟨rest, hact⟩ := cons_of_head? ha
    rcases h with ⟨hn, hsel⟩ | ⟨hn, hv⟩ | ⟨hn, hatt⟩
    · rcases hn with hn | hn | ⟨hn, hsuf⟩
      · simp only [String.toList] at hn
        simp [Handler, henv, hp, hd, hact, hn, hsel, Nat.not_lt.mpr hl, Run.crash]
      · simp only [String.toList] at hn
        simp [Handler, henv, hp, hd, hact, hn, hsel, Nat.not_lt.mpr hl, Run.crash]
      · simp only [String.toList] at hn hsuf
        simp [Handler, henv, hp, hd, hact, hn, hsuf, hsel, Nat.not_lt.mpr hl, Run.crash]
    · have hsplit := Split_single_not_mem '/' a0.Value hv
      simp only [String.toList] at hn
      simp [Handler, henv, hp, hd, hact, hn, hsplit, Nat.not_lt.mpr hl, Run.crash, Run.index,
        Run.ret]
    · rcases hn with hn | hn
      · simp only [String.toList] at hn
        simp [Handler, henv, hp, hd, hact, hn, hatt, Nat.not_lt.mpr hl, Run.crash,
          getResponseInteractiveMsg]
      · simp only [String.toList] at hn
        cases hsel : a0.SelectedOptions with
        | nil => simp [Handler, henv, hp, hd, hact, hn, hsel, Nat.not_lt.mpr hl, Run.crash]
        | cons o os =>
          have hh := Split_head o.Value ['/'] (by simp)
          simp [Handler, henv, hp, hd, hact, hn, hsel, hatt, hh, Nat.not_lt.mpr hl, Run.crash,
            Run.index, Run.ret, getResponseInteractiveMsg]

/-- C8 at a concrete input: a payload without actions. -/
theorem malformed_payload_panics_witness :
    Handler demoWorld (interactionRequest
        { Actions := [], CallbackID := "prod-cluster".toList, User := alice,
          OriginalMessage := menuMessage }) = ⟨.panic, []⟩ :=
  malformed_payload_panics demoWorld _ _
    { Actions := [], CallbackID := "prod-cluster".toList, User := alice,
      OriginalMessage := menuMessage }
    rfl (isInteraction_interactionRequest _) (Or.inl rfl)

/-- C8 fails as stated.  A `clusters` action with no selected option gets no
status-500 response: the invocation panics.  And a `taskStart` action with a
well-formed value on an original message with no attachment does make the
mutating call, `UpdateService`, before it panics on the missing attachment. -/
theorem missing_option_panics_and_start_updates_first :
    Handler demoWorld (interactionRequest
        { Actions := [{ Name := "clusters".toList, Type_ := "select".toList }],
          CallbackID := "ecsdeploy".toList, User := alice,
          OriginalMessage := menuMessage }) = ⟨.panic, []⟩ ∧
    Handler demoWorld (interactionRequest
        { Actions := [(Trigger.button "taskStart".toList "prod-web:10/web".toList).action],
          CallbackID := "prod-cluster".toList, User := alice,
          OriginalMessage := {} }) =
      ⟨.panic, [Call.UpdateService "prod-cluster".toList "web".toList "prod-web:10".toList]⟩ :=
  ⟨rfl, rfl⟩

/-- C1, as the code has it: take a cluster name `c` that ends with
`-cluster`, a service `s` and a revision identifier `r` without `/`, a first
message with an attachment, and a control plane that answers the queries of
the run without error and with well-formed data: the service identifiers it
lists for `c` all contain `/`, and the listing of the task family derived from
`c` and `s` is well formed (identifiers of the form `.../name:revision`, each
described with a first container whose image reference contains `:`).  Then
the run of `Handler` over the clicks clusters(c), services(s), imgTags(r/s),
taskStart(r/s), each made on the message the previous response rendered,
renders at least three messages, every rendered message has callback
identifier `c`, and the mutating calls of the run are exactly one,
`UpdateService(c, s, r)`. -/
theorem deployment_flow_updates_once (W : World) (env : envConfig) (u : User) (m0 : Message)
    (c s r : Str) (serviceArns taskArns : List Str)
    (henv : W.processEnv = .ok env) (hm0 : m0.Attachments ≠ [])
    (hc : HasSuffix c "-cluster".toList = true)
    (hs : '/' ∉ s) (hr : '/' ∉ r)
    (hsvc : W.ListServices c = .ok serviceArns) (hslash : ∀ a ∈ serviceArns, '/' ∈ a)
    (hfam : Fetched W (familyOf c s) taskArns) :
    3 ≤ (runFlow W u m0 (deployClicks c s r)).rendered.length ∧
    (∀ m ∈ (runFlow W u m0 (deployClicks c s r)).rendered, callbackOf m = c) ∧
    (runFlow W u m0 (deployClicks c s r)).calls.filter Call.isMutating =
      [Call.UpdateService c s r] := by
  obtain ⟨att, atts, hm⟩ : ∃ att atts, m0.Attachments = att :: atts := by
    cases h : m0.Attachments with
    | nil => exact absurd h hm0
    | cons a as => exact ⟨a, as, rfl⟩
  have hcne : c ≠ [] := by
    intro e
    rw [e] at hc
    exact absurd hc (by decide)
  have h1 : ListEcsService W c =
      ⟨.val (.ok (serviceArns.map (secondSegment '/'))), [Call.ListServices c]⟩ := by
    simp [ListEcsService, hsvc, namesOfArns_ok serviceArns hslash, Run.ret]
  have h2 := ListTaskRevsAndImageTags_ok W (familyOf c s) taskArns hfam
  have q1 := ListEcsService_quiet W c
  have q2 := ListTaskRevsAndImageTags_quiet W (familyOf c s)
  rw [h1] at q1
  rw [h2] at q2
  have f1 := filter_isMutating_of_quiet _ q1
  have f2 := filter_isMutating_of_quiet _ q2
  obtain ⟨att1, e1, c1⟩ := flow_clusters W env u m0 att atts c _ _ henv hm hcne h1
  have hsuf1 : HasSuffix att1.CallbackID "-cluster".toList = true := by rw [c1]; exact hc
  have h2a := h2
  rw [← c1] at h2a
  obtain ⟨att2, e2, c2⟩ := flow_services W env u
    { m0 with Attachments := att1 :: atts, ReplaceOriginal := true }
    att1 atts s _ _ henv rfl hsuf1 h2a
  obtain ⟨att3, e3, c3⟩ := flow_imgTags W env u
    { m0 with Attachments := att2 :: atts, ReplaceOriginal := true }
    att2 atts (r ++ "/".toList ++ s) henv rfl
  have e4 := flow_taskStart W env u
    { m0 with Attachments := att3 :: atts, ReplaceOriginal := true }
    att3 atts r s henv rfl hr hs
  have k1 : att1.CallbackID = c := c1
  have k2 : att2.CallbackID = c := c2.trans c1
  have k3 : att3.CallbackID = c := c3.trans k2
  simp only at f1 f2
  rcases e4 with ⟨err, e4⟩ | ⟨att4, e4, c4⟩
  · simp only [runFlow, deployClicks, e1, e2, e3, e4, getResponseMsg, Text.empty]
    simp only [k1] at f2 ⊢
    simp [callbackOf, k1, k2, k3, f2, List.filter_append, Call.isMutating]
  · have k4 : att4.CallbackID = c := c4.trans k3
    simp only [runFlow, deployClicks, e1, e2, e3, e4, getResponseMsg]
    simp only [k1] at f2 ⊢
    simp [callbackOf, k1, k2, k3, k4, f2, List.filter_append, Call.isMutating]

/-- C1 at a concrete input: `alice` deploys revision `prod-web:10` of the
service `web` on the cluster `prod-cluster` of the demo world. -/
theorem deployment_flow_updates_once_witness :
    3 ≤ (runFlow demoWorld alice menuMessage (deployClicks "prod-cluster".toList "web".toList
        "prod-web:10".toList)).rendered.length ∧
    (∀ m ∈ (runFlow demoWorld alice menuMessage (deployClicks "prod-cluster".toList
        "web".toList "prod-web:10".toList)).rendered, callbackOf m = "prod-cluster".toList) ∧
    (runFlow demoWorld alice menuMessage (deployClicks "prod-cluster".toList "web".toList
        "prod-web:10".toList)).calls.filter Call.isMutating =
      [Call.UpdateService "prod-cluster".toList "web".toList "prod-web:10".toList] :=
  deployment_flow_updates_once demoWorld _ alice menuMessage "prod-cluster".toList
    "web".toList "prod-web:10".toList
    ["arn:aws:ecs:ap-northeast-1:1:service/web".toList] _
    rfl (by decide) (by decide) (by decide) (by decide)
    rfl (by decide) demoWorld_fetched

/-- C1 fails as stated.  For the cluster `clusterA`, service `svcB` and
revision `rev7` the clusters step renders a message with callback identifier
`clusterA`, the services step answers 500 because that identifier does not
end with `-cluster`, no further message is rendered, and the run makes no
mutating call.  And for the cluster `prod-cluster`, when the control plane
answers every query without error but describes the images without a tag, the
services step renders nothing either and the run makes no mutating call. -/
theorem flow_stops_without_cluster_marker :
    (runFlow demoWorld alice menuMessage
        (deployClicks "clusterA".toList "svcB".toList "rev7".toList)).calls =
      [Call.ListServices "clusterA".toList] ∧
    (runFlow demoWorld alice menuMessage
        (deployClicks "clusterA".toList "svcB".toList "rev7".toList)).rendered.map callbackOf =
      ["clusterA".toList] ∧
    (∃ resp, (Handler demoWorld (interactionRequest
        { Actions := [(Trigger.select "services".toList "svcB".toList).action],
          CallbackID := "clusterA".toList, User := alice,
          OriginalMessage := menuMessage })).res = .val (resp, none) ∧
      resp.StatusCode = 500 ∧ resp.Body = Text.plain []) ∧
    (runFlow noTagWorld alice menuMessage
        (deployClicks "prod-cluster".toList "web".toList "prod-web:10".toList)).calls =
      [Call.ListServices "prod-cluster".toList,
       Call.ListTaskDefinitions "prod-web".toList,
       Call.DescribeTaskDefinition "prod-web:9".toList] ∧
    (runFlow noTagWorld alice menuMessage
        (deployClicks "prod-cluster".toList "web".toList
          "prod-web:10".toList)).rendered.length = 1 :=
  ⟨rfl, rfl, ⟨_, rfl, rfl, rfl⟩, rfl, rfl⟩

end EcsSlackbot
